import Mathlib

/-!
# lick: a shallow embedding of the unit-test runtime (lick.h / lick.cc)

Streams are modelled by the text written to them so far: every `strm << x`
becomes a function from the text before to the text after.  Mutable objects
(the execution context, the counters of the run driver) are passed explicitly.
The field `trace` of `world_t` is a ghost record of what was executed; no
definition reads it.
-/

set_option autoImplicit false

namespace lick

/-! ## Constants (lick.cc 25-29) -/

def pass : String := "pass"

def fail : String := "fail"

def separator : String := "; "

def red : String := "\x1b[1;31m"

def green : String := "\x1b[1;32m"

def bold : String := "\x1b[1m"

def plain : String := "\x1b[0m"

/-- The text that `std::endl` puts on a stream. -/
def endl : String := "\n"

/-- Value of `EXIT_SUCCESS` in `<cstdlib>`. -/
def EXIT_SUCCESS : Int := 0

/-- Value of `EXIT_FAILURE` in `<cstdlib>`. -/
def EXIT_FAILURE : Int := 1

/-! ## Small printable values (lick.h 223-313) -/

/-- Class `pf_t`: a pass/fail flag that prints itself in colour. -/
structure pf_t where
  ok : Bool
deriving DecidableEq, Repr

/-- The `operator<<` of `pf_t`. -/
def pf_t.write (strm : String) (that : pf_t) : String :=
  let strm := if that.ok then strm ++ green ++ pass else strm ++ red ++ fail
  strm ++ plain

/-- Class `indent_t`. -/
structure indent_t where
  depth : Int
deriving DecidableEq, Repr

/-- The loop `for (i = 0; i < depth; ++i) strm << "  "`, with the number of rounds left. -/
def indent_t.loop : Nat → String → String
  | 0, strm => strm
  | n + 1, strm => indent_t.loop n (strm ++ "  ")

/-- The `operator<<` of `indent_t`. -/
def indent_t.write (strm : String) (that : indent_t) : String :=
  indent_t.loop that.depth.toNat strm

/-- Class `loc_t`: a source file and a line. -/
structure loc_t where
  file : String
  line : Int
deriving DecidableEq, Repr

/-- The `operator<<` of `loc_t`. -/
def loc_t.write (strm : String) (that : loc_t) : String :=
  strm ++ that.file ++ ":" ++ toString that.line

/-! ## Exceptions and the fault boundary (lick.cc 31-55, lick.h 315-473) -/

/-- What `write_ex` can observe of a `std::exception` on which `std::rethrow_if_nested`
comes back, by returning or by throwing: its `what()` text and which of the two it is.
The exception on which that call ends the process is `full.exception.nest_null`, below. -/
inductive exception where
  /-- nothing nested: `rethrow_if_nested` returns -/
  | leaf (what : String)
  /-- the nested exception is itself a `std::exception` -/
  | nest (what : String) (nested_ex : exception)
  /-- the nested exception is of some other type -/
  | nest_other (what : String)
deriving DecidableEq, Repr

/-- Anything a procedure can throw, as the two `catch` clauses of `stalled_t` see it. -/
inductive thrown_t where
  | std (ex : exception)
  | other
deriving DecidableEq, Repr

/-- The overload `get_ex_msg()` without argument. -/
def get_ex_msg_noarg : String := "non-standard exception"

/-- Function `write_ex` on the exceptions of `exception`; on every exception it is
`full.write_ex`. -/
def write_ex (strm : String) : exception → Bool → String
  | .leaf what, is_nested =>
    let strm := if is_nested then strm ++ separator else strm
    strm ++ what
  | .nest what nested_ex, is_nested =>
    let strm := if is_nested then strm ++ separator else strm
    let strm := strm ++ what
    write_ex strm nested_ex true
  | .nest_other what, is_nested =>
    let strm := if is_nested then strm ++ separator else strm
    let strm := strm ++ what
    strm ++ separator ++ get_ex_msg_noarg

/-- The overload `get_ex_msg(ex)`: `write_ex` into an empty string stream. -/
def get_ex_msg (ex : exception) : String :=
  write_ex "" ex false

/-- Class `opt_t<val_t>`: `none` is the state with `constructed == false`. -/
abbrev opt_t (val_t : Type) : Type := Option val_t

/-- The `operator bool` of `opt_t`: it returns `constructed`. -/
def opt_t.to_bool {val_t : Type} (this : opt_t val_t) : Bool :=
  this.isSome

/-- Class `stalled_t<ret_t>` (for `ret_t = void` the field `ret` carries no information). -/
structure stalled_t (ret_t : Type) where
  ret : opt_t ret_t
  msg : String
  ok : Bool
deriving DecidableEq, Repr

/-- The `operator bool` of `stalled_t`. -/
def stalled_t.to_bool {ret_t : Type} (this : stalled_t ret_t) : Bool :=
  this.ok

/-- Function `stall`, given how the call of `fn` ended: the `try` block with its two
`catch` clauses, on the faults of `thrown_t`; on every fault it is `full.stall`. -/
def stall {ret_t : Type} : Except thrown_t ret_t → stalled_t ret_t
  | .ok ret => { ret := some ret, msg := "", ok := true }
  | .error (.std ex) => { ret := none, msg := get_ex_msg ex, ok := false }
  | .error .other => { ret := none, msg := get_ex_msg_noarg, ok := false }

/-! ## Configuration (lick.h 475-524, lick.cc 57-86) -/

/-- Class `cfg_t`.  The field `regex` is the compiled pattern, kept as the predicate
`std::regex_match(name, regex)`.  The stream `*strm` lives in `world_t`. -/
structure cfg_t where
  regex : String → Bool
  verbosity : Int
  strict : Bool

/-- Method `cfg_t::set_verbosity`. -/
def cfg_t.set_verbosity (this : cfg_t) (verbosity_ : Int) : cfg_t :=
  { this with verbosity := if verbosity_ < 0 then 0 else if verbosity_ > 2 then 2 else verbosity_ }

/-- The library functions used by the configuration code. -/
structure lib_t where
  /-- the constructor `std::regex { pattern }`: the full-match predicate of the
  compiled pattern, or the exception it throws -/
  regex_ctor : String → Except thrown_t (String → Bool)
  /-- the function `atoi` -/
  atoi : String → Int

/-- One return value of `getopt(argc, argv, "n:sv:")` other than the final `-1`. -/
inductive getopt_t where
  | n (optarg : String)
  | s
  | v (optarg : String)
  /-- any other value, such as the `?` of an unrecognized flag -/
  | unrecognized
deriving DecidableEq, Repr

/-- The default constructor `cfg_t::cfg_t()`. -/
def cfg_t.ctor (lib : lib_t) : Except thrown_t cfg_t :=
  match lib.regex_ctor ".*" with
  | .error t => .error t
  | .ok regex => .ok { regex := regex, verbosity := 1, strict := false }

/-- Function `cfg_t::parse`, over the successive return values of `getopt`; the end of
the list is the `-1` on which the loop breaks. -/
def cfg_t.parse (lib : lib_t) (cfg : cfg_t) : List getopt_t → Except thrown_t (cfg_t × Bool)
  | [] => .ok (cfg, true)
  | .n optarg :: rest =>
    match lib.regex_ctor optarg with
    | .error t => .error t
    | .ok regex => cfg_t.parse lib { cfg with regex := regex } rest
  | .s :: rest => cfg_t.parse lib { cfg with strict := true } rest
  | .v optarg :: rest => cfg_t.parse lib (cfg.set_verbosity (lib.atoi optarg)) rest
  | .unrecognized :: _ => .ok (cfg, false)

/-! ## Operands and predicates (lick.h 156-200, 624-904, lick.cc 159-233) -/

/-- Class `any_operand_t`: the source text of an operand, and the text `write_val`
puts on a stream for its value. -/
structure any_operand_t where
  src : String
  val : String
deriving DecidableEq, Repr

/-- Method `any_operand_t::write_src`. -/
def any_operand_t.write_src (this : any_operand_t) (strm : String) : String :=
  strm ++ this.src

/-- Method `write_val`. -/
def any_operand_t.write_val (this : any_operand_t) (strm : String) : String :=
  strm ++ this.val

/-- Class `operand_t<val_t>`. -/
structure operand_t (val_t : Type) where
  src : String
  val : val_t
deriving DecidableEq, Repr

/-- Function `as_operand`. -/
def as_operand {val_t : Type} (src : String) (val : val_t) : operand_t val_t :=
  { src := src, val := val }

/-- The `operator<<` of a stream for the value types used here. -/
class shl_t (val_t : Type) where
  shl : String → val_t → String

instance : shl_t Int := ⟨fun strm val => strm ++ toString val⟩

instance : shl_t Nat := ⟨fun strm val => strm ++ toString val⟩

instance : shl_t String := ⟨fun strm val => strm ++ val⟩

/-- A `bool` is written as `1` or `0`. -/
instance : shl_t Bool := ⟨fun strm val => strm ++ (if val then "1" else "0")⟩

/-- Function template `write`: `strm << val`. -/
def write {val_t : Type} [shl_t val_t] (strm : String) (val : val_t) : String :=
  shl_t.shl strm val

/-- An `operand_t<val_t>` seen through its base class. -/
def operand_t.base {val_t : Type} [shl_t val_t] (this : operand_t val_t) : any_operand_t :=
  { src := this.src, val := write "" this.val }

/-- Class `predicate_t` with its three subclasses `unary_t`, `binary_t`, `ternary_t`;
`name` is what the virtual `get_name` returns. -/
inductive predicate_t where
  | unary (ok : Bool) (name : String) (operand : any_operand_t)
  | binary (ok : Bool) (name : String) (lhs rhs : any_operand_t)
  | ternary (ok : Bool) (name : String) (lhs rhs coef : any_operand_t)
deriving DecidableEq, Repr

/-- The `operator bool` of `predicate_t`. -/
def predicate_t.to_bool : predicate_t → Bool
  | .unary ok _ _ => ok
  | .binary ok _ _ _ => ok
  | .ternary ok _ _ _ _ => ok

/-- Method `get_name`. -/
def predicate_t.get_name : predicate_t → String
  | .unary _ name _ => name
  | .binary _ name _ _ => name
  | .ternary _ name _ _ _ => name

/-- Method `for_each_operand` of the three subclasses; `s` is the state the callback
captures by reference, and `&&` stops at the first `false`. -/
def predicate_t.for_each_operand {σ : Type} (this : predicate_t)
    (cb : σ → any_operand_t → σ × Bool) (s : σ) : σ × Bool :=
  match this with
  | .unary _ _ operand => cb s operand
  | .binary _ _ lhs rhs =>
    let (s, r) := cb s lhs
    if r then cb s rhs else (s, false)
  | .ternary _ _ lhs rhs coef =>
    let (s, r) := cb s lhs
    if r then
      let (s, r) := cb s rhs
      if r then cb s coef else (s, false)
    else (s, false)

/-- The character `*src` a C string starts with (NUL when it is empty). -/
def deref (src : String) : Char :=
  src.data.headD (Char.ofNat 0)

/-- Method `predicate_t::write_src`. -/
def predicate_t.write_src (this : predicate_t) (strm : String) : String :=
  let name := this.get_name
  let strm := strm ++ "EXPECT"
  let strm := if deref name ≠ Char.ofNat 0 then strm ++ "_" ++ name else strm
  let strm := strm ++ "("
  let needs_comma := false
  let ((strm, _), _) := this.for_each_operand
    (fun (s : String × Bool) operand =>
      let (strm, needs_comma) := s
      let (strm, needs_comma) :=
        if needs_comma then (strm ++ ", ", needs_comma) else (strm, true)
      ((operand.write_src strm, needs_comma), true))
    (strm, needs_comma)
  strm ++ ")"

/-- Function template `as_bool`: `static_cast<bool>`. -/
class as_bool_t (operand_t : Type) where
  as_bool : operand_t → Bool

instance : as_bool_t Bool := ⟨fun b => b⟩

instance : as_bool_t Int := ⟨fun n => n != 0⟩

/-- Function template `eq`. -/
def eq {val_t : Type} [DecidableEq val_t] (lhs rhs : val_t) : Bool := decide (lhs = rhs)

/-- Function template `ne`. -/
def ne {val_t : Type} [DecidableEq val_t] (lhs rhs : val_t) : Bool := decide (lhs ≠ rhs)

/-- Function template `lt`. -/
def lt {val_t : Type} [LinearOrder val_t] (lhs rhs : val_t) : Bool := decide (lhs < rhs)

/-- Function template `le`. -/
def le {val_t : Type} [LinearOrder val_t] (lhs rhs : val_t) : Bool := decide (lhs ≤ rhs)

/-- Function template `gt`. -/
def gt {val_t : Type} [LinearOrder val_t] (lhs rhs : val_t) : Bool := decide (lhs > rhs)

/-- Function template `ge`. -/
def ge {val_t : Type} [LinearOrder val_t] (lhs rhs : val_t) : Bool := decide (lhs ≥ rhs)

namespace predicate

/-- Constructor of `true_t`. -/
def true_t {val_t : Type} [shl_t val_t] [as_bool_t val_t]
    (operand : operand_t val_t) : predicate_t :=
  .unary (as_bool_t.as_bool operand.val) "" operand.base

/-- Constructor of `false_t`. -/
def false_t {val_t : Type} [shl_t val_t] [as_bool_t val_t]
    (operand : operand_t val_t) : predicate_t :=
  .unary (!as_bool_t.as_bool operand.val) "NOT" operand.base

/-- Constructor of `eq_t`. -/
def eq_t {val_t : Type} [shl_t val_t] [DecidableEq val_t]
    (lhs rhs : operand_t val_t) : predicate_t :=
  .binary (eq lhs.val rhs.val) "EQ" lhs.base rhs.base

/-- Constructor of `ne_t`. -/
def ne_t {val_t : Type} [shl_t val_t] [DecidableEq val_t]
    (lhs rhs : operand_t val_t) : predicate_t :=
  .binary (ne lhs.val rhs.val) "NE" lhs.base rhs.base

/-- Constructor of `lt_t`. -/
def lt_t {val_t : Type} [shl_t val_t] [LinearOrder val_t]
    (lhs rhs : operand_t val_t) : predicate_t :=
  .binary (lt lhs.val rhs.val) "LT" lhs.base rhs.base

/-- Constructor of `le_t`. -/
def le_t {val_t : Type} [shl_t val_t] [LinearOrder val_t]
    (lhs rhs : operand_t val_t) : predicate_t :=
  .binary (le lhs.val rhs.val) "LE" lhs.base rhs.base

/-- Constructor of `gt_t`. -/
def gt_t {val_t : Type} [shl_t val_t] [LinearOrder val_t]
    (lhs rhs : operand_t val_t) : predicate_t :=
  .binary (gt lhs.val rhs.val) "GT" lhs.base rhs.base

/-- Constructor of `ge_t`. -/
def ge_t {val_t : Type} [shl_t val_t] [LinearOrder val_t]
    (lhs rhs : operand_t val_t) : predicate_t :=
  .binary (ge lhs.val rhs.val) "GE" lhs.base rhs.base

/-- Constructor of `almost_eq_t`.  The outcome `almost_eq(lhs.val, rhs.val, coef.val)` is
floating-point arithmetic of the C++ implementation; the function that computes it is taken
as given. -/
def almost_eq_t {lhs_t rhs_t coef_t : Type} [shl_t lhs_t] [shl_t rhs_t] [shl_t coef_t]
    (almost_eq : lhs_t → rhs_t → coef_t → Bool)
    (lhs : operand_t lhs_t) (rhs : operand_t rhs_t) (coef : operand_t coef_t) : predicate_t :=
  .ternary (almost_eq lhs.val rhs.val coef.val) "ALMOST_EQ" lhs.base rhs.base coef.base

/-- Constructor of `not_almost_eq_t`, with the same function `almost_eq`. -/
def not_almost_eq_t {lhs_t rhs_t coef_t : Type} [shl_t lhs_t] [shl_t rhs_t] [shl_t coef_t]
    (almost_eq : lhs_t → rhs_t → coef_t → Bool)
    (lhs : operand_t lhs_t) (rhs : operand_t rhs_t) (coef : operand_t coef_t) : predicate_t :=
  .ternary (!almost_eq lhs.val rhs.val coef.val) "NOT_ALMOST_EQ" lhs.base rhs.base coef.base

end predicate

/-! ## Expectations, fixtures and the execution context (lick.h 528-622, 906-937) -/

/-- Class `expectation_t`. -/
structure expectation_t where
  string_builder : String
  loc : loc_t
  predicate : predicate_t
  ok : Bool
deriving DecidableEq, Repr

/-- Constructor of `expectation_t`. -/
def expectation_t.ctor (loc_ : loc_t) (predicate_ : predicate_t) : expectation_t :=
  { string_builder := "", loc := loc_, predicate := predicate_, ok := predicate_.to_bool }

/-- The `operator<<` of `expectation_t`. -/
def expectation_t.shl {val_t : Type} [shl_t val_t] (this : expectation_t) (val : val_t) :
    expectation_t :=
  { this with string_builder := write this.string_builder val }

/-- What a fixture procedure does through this library, one full statement at a time. -/
inductive stmt_t where
  /-- one of the `EXPECT...` forms at `loc`, followed by `<< val` for each text of `extra` -/
  | expect (loc : loc_t) (predicate : predicate_t) (extra : List String)
  /-- the statement `lick::strm() << text`, where `lick::strm()` is
  `ctxt_t::get_singleton()->get_strm()`; the text is empty when the stream is asked for and
  nothing is written to it -/
  | strm (text : String)
deriving DecidableEq, Repr

/-- A procedure of type `fn_t`, as the statements it completes and the way it ends:
`none` when it returns, `some t` when it throws `t` after them. -/
structure fn_t where
  body : List stmt_t
  thrown : Option thrown_t
deriving DecidableEq, Repr

/-- Class `fixture_t`; the `next` links are the order of the registry list. -/
structure fixture_t where
  loc : loc_t
  name : String
  fn : fn_t
deriving DecidableEq, Repr

/-- Ghost record of execution. -/
inductive event_t where
  /-- the procedure of a fixture starts to run -/
  | enter (fixture : fixture_t)
  /-- the destructor of an expectation runs -/
  | completed (expectation : expectation_t)
  /-- the call operator of a fixture returns `ret` -/
  | leave (fixture : fixture_t) (ret : Bool)
deriving DecidableEq, Repr

/-- The state outside the objects of the library: the text on the stream `*cfg.strm`,
the text on `std::cerr`, and the ghost record. -/
structure world_t where
  strm : String
  cerr : String
  trace : List event_t
deriving DecidableEq, Repr

/-- Class `ctxt_t`.  While a fixture runs, `singleton` points at its context, which
is passed explicitly here. -/
structure ctxt_t where
  fixture : fixture_t
  cfg : cfg_t
  showing : Bool
  ok : Bool

/-- The `operator bool` of `ctxt_t`. -/
def ctxt_t.to_bool (this : ctxt_t) : Bool :=
  this.ok

/-- Method `ctxt_t::fail`. -/
def ctxt_t.fail (this : ctxt_t) : ctxt_t :=
  { this with ok := false }

/-- Method `ctxt_t::on_begin_show`. -/
def ctxt_t.on_begin_show (this : ctxt_t) (w : world_t) : ctxt_t × world_t :=
  if this.showing then (this, w)
  else
    let this := { this with showing := true }
    let strm := w.strm
    let strm := loc_t.write strm this.fixture.loc
    let strm := strm ++ separator ++ "begin " ++ bold ++ this.fixture.name ++ plain ++ endl
    (this, { w with strm := strm })

/-- Method `ctxt_t::on_end_show`. -/
def ctxt_t.on_end_show (this : ctxt_t) (w : world_t) : world_t :=
  if !this.showing then w
  else
    let strm := w.strm
    let strm := strm ++ "end " ++ bold ++ this.fixture.name ++ plain ++ separator
    let strm := pf_t.write strm { ok := this.ok }
    { w with strm := strm ++ endl }

/-- Constructor of `ctxt_t`. -/
def ctxt_t.ctor (fixture_ : fixture_t) (cfg_ : cfg_t) (w : world_t) : ctxt_t × world_t :=
  let this : ctxt_t := { fixture := fixture_, cfg := cfg_, showing := false, ok := true }
  if this.cfg.verbosity ≥ 2 then this.on_begin_show w else (this, w)

/-- Destructor of `ctxt_t`. -/
def ctxt_t.dtor (this : ctxt_t) (w : world_t) : world_t :=
  this.on_end_show w

/-- Method `ctxt_t::get_strm`: the stream is `w.strm` of the result. -/
def ctxt_t.get_strm (this : ctxt_t) (w : world_t) : ctxt_t × world_t :=
  this.on_begin_show w

/-- The callback the destructor of `expectation_t` hands to `for_each_operand`; the
characters 39 and 34 are the single and the double quote. -/
def expectation_t.dtor.cb (strm : String) (operand : any_operand_t) : String × Bool :=
  let src := operand.src
  if !(deref src).isDigit && deref src ≠ Char.ofNat 39 && deref src ≠ Char.ofNat 34 then
    (operand.write_val (strm ++ separator ++ src ++ "="), true)
  else (strm, true)

/-- Destructor of `expectation_t`, run with `ctxt` the current context. -/
def expectation_t.dtor (this : expectation_t) (ctxt : ctxt_t) (w : world_t) :
    ctxt_t × world_t :=
  let w := { w with trace := w.trace ++ [event_t.completed this] }
  let ctxt := if !this.ok then ctxt.fail else ctxt
  let cfg := ctxt.cfg
  if !this.ok || cfg.verbosity ≥ 2 then
    let (ctxt, w) := ctxt.get_strm w
    let strm := w.strm
    let strm := indent_t.write strm { depth := 1 }
    let strm := loc_t.write strm this.loc
    let strm := strm ++ separator
    let strm := pf_t.write strm { ok := this.ok }
    let strm := strm ++ separator
    let strm := this.predicate.write_src strm
    let (strm, _) := this.predicate.for_each_operand expectation_t.dtor.cb strm
    let extra := this.string_builder
    let strm := if extra ≠ "" then strm ++ separator ++ extra else strm
    let strm := strm ++ endl
    (ctxt, { w with strm := strm })
  else (ctxt, w)

/-- One statement of a fixture procedure. -/
def stmt_t.exec (s : ctxt_t × world_t) : stmt_t → ctxt_t × world_t
  | .expect loc predicate extra =>
    let e := expectation_t.ctor loc predicate
    let e := extra.foldl (fun e val => e.shl val) e
    e.dtor s.1 s.2
  | .strm text =>
    let (ctxt, w) := s.1.get_strm s.2
    (ctxt, { w with strm := w.strm ++ text })

/-- The call `fn()` of a fixture procedure: how it ended, and the state it leaves. -/
def fn_t.call (this : fn_t) (ctxt : ctxt_t) (w : world_t) :
    Except thrown_t Unit × ctxt_t × world_t :=
  let s := this.body.foldl stmt_t.exec (ctxt, w)
  match this.thrown with
  | none => (.ok (), s.1, s.2)
  | some t => (.error t, s.1, s.2)

/-- Constructor of `fixture_t`: the new fixture goes to the end of the registry. -/
def fixture_t.ctor (registry : List fixture_t) (loc_ : loc_t) (name_ : String) (fn_ : fn_t) :
    List fixture_t :=
  registry ++ [{ loc := loc_, name := name_, fn := fn_ }]

/-- The call operator `fixture_t::operator()`. -/
def fixture_t.call (this : fixture_t) (cfg : cfg_t) (w : world_t) : Bool × world_t :=
  let (ctxt, w) := ctxt_t.ctor this cfg w
  let w := { w with trace := w.trace ++ [event_t.enter this] }
  let (r, ctxt, w) := this.fn.call ctxt w
  let stalled := stall r
  if !stalled.to_bool then
    let strm := w.strm
    let strm := indent_t.write strm { depth := 1 }
    let strm := strm ++ red ++ "exception" ++ plain ++ separator ++ stalled.msg ++ endl
    let w := { w with strm := strm }
    let w := ctxt.dtor w
    (false, { w with trace := w.trace ++ [event_t.leave this false] })
  else
    let ret := ctxt.to_bool
    let w := ctxt.dtor w
    (ret, { w with trace := w.trace ++ [event_t.leave this ret] })

/-- Function `fixture_t::for_each` over the registry from `first`. -/
def fixture_t.for_each {σ : Type} (registry : List fixture_t)
    (cb : σ → fixture_t → σ × Bool) (s : σ) : σ × Bool :=
  match registry with
  | [] => (s, true)
  | fixture :: next =>
    let (s, r) := cb s fixture
    if !r then (s, false) else fixture_t.for_each next cb s

/-! ## The run driver (lick.cc 270-308) -/

/-- The three counters of `run_fixtures`.  They are `int` in the source; natural numbers
are exact for registries of fewer than 2^31 fixtures. -/
structure counts_t where
  pass_cnt : Nat
  fail_cnt : Nat
  skip_cnt : Nat
deriving DecidableEq, Repr

/-- The callback `run_fixtures` hands to `for_each`. -/
def run_fixtures.cb (cfg : cfg_t) (s : counts_t × world_t) (fixture : fixture_t) :
    (counts_t × world_t) × Bool :=
  if cfg.regex fixture.name then
    let (r, w) := fixture.call cfg s.2
    if r then (({ s.1 with pass_cnt := s.1.pass_cnt + 1 }, w), true)
    else (({ s.1 with fail_cnt := s.1.fail_cnt + 1 }, w), true)
  else
    (({ s.1 with skip_cnt := s.1.skip_cnt + 1 }, s.2), true)

/-- The first half of `run_fixtures`: the counters and the state after `for_each`. -/
def run_fixtures.loop (registry : List fixture_t) (cfg : cfg_t) (w : world_t) :
    counts_t × world_t :=
  (fixture_t.for_each registry (run_fixtures.cb cfg)
    ({ pass_cnt := 0, fail_cnt := 0, skip_cnt := 0 }, w)).1

/-- Function `run_fixtures`. -/
def run_fixtures (registry : List fixture_t) (cfg : cfg_t) (w : world_t) : Bool × world_t :=
  let (c, w) := run_fixtures.loop registry cfg w
  let ok :=
    if cfg.strict then (c.pass_cnt != 0 && c.fail_cnt == 0) else (c.fail_cnt == 0)
  if !ok || cfg.verbosity ≥ 1 then
    let strm := w.strm
    let strm := strm ++ "passed " ++ toString c.pass_cnt ++ separator
    let strm := strm ++ "failed " ++ toString c.fail_cnt ++ separator
    let strm := strm ++ "skipped " ++ toString c.skip_cnt ++ separator
    let strm := pf_t.write strm { ok := ok }
    (ok, { w with strm := strm ++ endl })
  else (ok, w)

/-- The lambda that `lick::main` stalls. -/
def main.fn (registry : List fixture_t) (lib : lib_t) (opts : List getopt_t) (w : world_t) :
    Except thrown_t Bool × world_t :=
  match cfg_t.ctor lib with
  | .error t => (.error t, w)
  | .ok cfg =>
    match cfg_t.parse lib cfg opts with
    | .error t => (.error t, w)
    | .ok (cfg, true) =>
      let (ok, w) := run_fixtures registry cfg w
      (.ok ok, w)
    | .ok (_, false) => (.ok false, w)

/-- Function `lick::main`: the exit code and the final state. -/
def main (registry : List fixture_t) (lib : lib_t) (opts : List getopt_t) (w : world_t) :
    Int × world_t :=
  let (r, w) := main.fn registry lib opts w
  let stalled := stall r
  if !stalled.to_bool then
    (EXIT_FAILURE, { w with cerr := w.cerr ++ stalled.msg ++ endl })
  else if stalled.ret.to_bool then (EXIT_SUCCESS, w) else (EXIT_FAILURE, w)

/-! ## The registry as linked objects (lick.cc 123-153, lick.h 618-620) -/

/-- A `fixture_t` object in memory with its `next` pointer.  The address of an object is
its position in `registry_t.objects`, and `none` is `nullptr`. -/
structure node_t where
  fixture : fixture_t
  next : Option Nat
deriving DecidableEq, Repr

/-- The fixture objects constructed so far, in the order of their construction, and the
static pointers `fixture_t::first` and `fixture_t::last`. -/
structure registry_t where
  objects : List node_t
  first : Option Nat
  last : Option Nat
deriving DecidableEq, Repr

/-- The state before any fixture is constructed: both static pointers are `nullptr`. -/
def registry_t.init : registry_t :=
  { objects := [], first := none, last := none }

/-- Constructor of `fixture_t` on the linked objects: the new object has `next == nullptr`,
then `(last ? last->next : first) = this; last = this;`. -/
def registry_t.ctor (r : registry_t) (loc_ : loc_t) (name_ : String) (fn_ : fn_t) :
    registry_t :=
  let this := r.objects.length
  let objects :=
    r.objects ++ [{ fixture := { loc := loc_, name := name_, fn := fn_ }, next := none }]
  match r.last with
  | some last =>
    { objects := List.modify (fun node => { node with next := some this }) last objects,
      first := r.first, last := some this }
  | none => { objects := objects, first := some this, last := some this }

/-- The loop of `fixture_t::for_each` on the linked objects, from the pointer `fixture`;
`fuel` bounds the number of rounds, and the result is `none` when the fuel runs out or a
pointer leads to no object. -/
def registry_t.for_each_from {σ : Type} (r : registry_t) (cb : σ → fixture_t → σ × Bool) :
    Nat → Option Nat → σ → Option (σ × Bool)
  | _, none, s => some (s, true)
  | 0, some _, _ => none
  | fuel + 1, some fixture, s =>
    match r.objects[fixture]? with
    | none => none
    | some node =>
      if !(cb s node.fixture).2 then some ((cb s node.fixture).1, false)
      else registry_t.for_each_from r cb fuel node.next (cb s node.fixture).1

/-- Function `fixture_t::for_each` on the linked objects: the loop from `first`. -/
def registry_t.for_each {σ : Type} (r : registry_t) (cb : σ → fixture_t → σ × Bool)
    (fuel : Nat) (s : σ) : Option (σ × Bool) :=
  r.for_each_from cb fuel r.first s

/-- The state after the fixtures of a list have been constructed one after the other. -/
def registry_t.register (fixtures : List fixture_t) : registry_t :=
  fixtures.foldl (fun r fixture => r.ctor fixture.loc fixture.name fixture.fn) registry_t.init

/-- The shape of the linked objects that hold the fixtures of a list in order: each object
points to the next one, the last to nothing, `first` to the first and `last` to the last. -/
def registry_t.holds (r : registry_t) (fixtures : List fixture_t) : Prop :=
  (∀ i : Nat, r.objects[i]? = (fixtures[i]?).map (fun fixture =>
    { fixture := fixture, next := if i + 1 < fixtures.length then some (i + 1) else none })) ∧
  r.first = (if fixtures.length = 0 then none else some 0) ∧
  r.last = (if fixtures.length = 0 then none else some (fixtures.length - 1))

/-! ## Every fault, the ones that end the process included (lick.cc 31-44, 129-149, 270-294, lick.h 399-467)

The definitions above take a fault from `exception`, on which `std::rethrow_if_nested`
comes back to `write_ex`.  The namespace `full` has the same functions over every
`std::exception`: on one that is derived from `std::nested_exception` and holds no cause,
`rethrow_nested` calls `std::terminate`, inside the `noexcept` constructor of `stalled_t`,
and the process ends there. -/

namespace full

/-- What `write_ex` can observe of any `std::exception`: its `what()` text and what
`std::rethrow_if_nested` does with it. -/
inductive exception where
  /-- not derived from `std::nested_exception`: `rethrow_if_nested` returns -/
  | leaf (what : String)
  /-- derived from `std::nested_exception`, and `nested_ptr()` holds a `std::exception`,
  which `rethrow_nested` throws -/
  | nest (what : String) (nested_ex : exception)
  /-- derived from `std::nested_exception`, and `nested_ptr()` holds an object of another
  type, which `rethrow_nested` throws -/
  | nest_other (what : String)
  /-- derived from `std::nested_exception`, and `nested_ptr()` is null, as in the object
  that `std::throw_with_nested` throws outside of a handler: `rethrow_nested` calls
  `std::terminate` -/
  | nest_null (what : String)
deriving DecidableEq, Repr

/-- Anything a procedure can throw, as the two `catch` clauses of `stalled_t` see it. -/
inductive thrown_t where
  | std (ex : exception)
  | other
deriving DecidableEq, Repr

/-- Function `write_ex`; `none` when `std::terminate` is called, where the text written to
the string stream so far is lost with the process. -/
def write_ex (strm : String) : exception → Bool → Option String
  | .leaf what, is_nested =>
    let strm := if is_nested then strm ++ separator else strm
    some (strm ++ what)
  | .nest what nested_ex, is_nested =>
    let strm := if is_nested then strm ++ separator else strm
    let strm := strm ++ what
    write_ex strm nested_ex true
  | .nest_other what, is_nested =>
    let strm := if is_nested then strm ++ separator else strm
    let strm := strm ++ what
    some (strm ++ separator ++ get_ex_msg_noarg)
  | .nest_null _, _ => none

/-- The overload `get_ex_msg(ex)`; `none` when `std::terminate` is called. -/
def get_ex_msg (ex : exception) : Option String :=
  write_ex "" ex false

/-- Function `stall`, given how the call of `fn` ended; `none` when `std::terminate` is
called in the first `catch` clause. -/
def stall {ret_t : Type} : Except thrown_t ret_t → Option (stalled_t ret_t)
  | .ok ret => some { ret := some ret, msg := "", ok := true }
  | .error (.std ex) =>
    match get_ex_msg ex with
    | some msg => some { ret := none, msg := msg, ok := false }
    | none => none
  | .error .other => some { ret := none, msg := get_ex_msg_noarg, ok := false }

/-- How a call ends when the process can end inside it: the call returns `ret`, or
`std::terminate` is called in the state `w`. -/
inductive ending_t (ret_t : Type) where
  | returned (ret : ret_t)
  | terminated (w : world_t)
deriving DecidableEq, Repr

/-- A procedure of type `fn_t`, as the statements it completes and the way it ends. -/
structure fn_t where
  body : List stmt_t
  thrown : Option thrown_t
deriving DecidableEq, Repr

/-- Class `fixture_t`. -/
structure fixture_t where
  loc : loc_t
  name : String
  fn : fn_t
deriving DecidableEq, Repr

/-- The exception as `exception` has it: an exception that holds no cause stands as one
that is not derived from `std::nested_exception`. -/
def exception.base : exception → lick.exception
  | .leaf what => .leaf what
  | .nest what nested_ex => .nest what nested_ex.base
  | .nest_other what => .nest_other what
  | .nest_null what => .leaf what

/-- The thrown object as `thrown_t` has it. -/
def thrown_t.base : thrown_t → lick.thrown_t
  | .std ex => .std ex.base
  | .other => .other

/-- The fixture as the context and the ghost record keep it; the context reads its
location and its name only. -/
def fixture_t.base (this : fixture_t) : lick.fixture_t :=
  { loc := this.loc, name := this.name,
    fn := { body := this.fn.body, thrown := this.fn.thrown.map thrown_t.base } }

/-- The call `fn()` of a fixture procedure: how it ended, and the state it leaves. -/
def fn_t.call (this : fn_t) (ctxt : ctxt_t) (w : world_t) :
    Except thrown_t Unit × ctxt_t × world_t :=
  let s := this.body.foldl stmt_t.exec (ctxt, w)
  match this.thrown with
  | none => (.ok (), s.1, s.2)
  | some t => (.error t, s.1, s.2)

/-- The call operator `fixture_t::operator()`. -/
def fixture_t.call (this : fixture_t) (cfg : cfg_t) (w : world_t) :
    ending_t (Bool × world_t) :=
  let (ctxt, w) := ctxt_t.ctor this.base cfg w
  let w := { w with trace := w.trace ++ [event_t.enter this.base] }
  let (r, ctxt, w) := this.fn.call ctxt w
  match stall r with
  | none => .terminated w
  | some stalled =>
    if !stalled.to_bool then
      let strm := w.strm
      let strm := indent_t.write strm { depth := 1 }
      let strm := strm ++ red ++ "exception" ++ plain ++ separator ++ stalled.msg ++ endl
      let w := { w with strm := strm }
      let w := ctxt.dtor w
      .returned (false, { w with trace := w.trace ++ [event_t.leave this.base false] })
    else
      let ret := ctxt.to_bool
      let w := ctxt.dtor w
      .returned (ret, { w with trace := w.trace ++ [event_t.leave this.base ret] })

/-- Function `fixture_t::for_each` over the registry from `first`. -/
def fixture_t.for_each {σ : Type} (registry : List fixture_t)
    (cb : σ → fixture_t → ending_t (σ × Bool)) (s : σ) : ending_t (σ × Bool) :=
  match registry with
  | [] => .returned (s, true)
  | fixture :: next =>
    match cb s fixture with
    | .terminated w => .terminated w
    | .returned (s, r) =>
      if !r then .returned (s, false) else fixture_t.for_each next cb s

/-- The callback `run_fixtures` hands to `for_each`. -/
def run_fixtures.cb (cfg : cfg_t) (s : counts_t × world_t) (fixture : fixture_t) :
    ending_t ((counts_t × world_t) × Bool) :=
  if cfg.regex fixture.name then
    match fixture.call cfg s.2 with
    | .terminated w => .terminated w
    | .returned (r, w) =>
      if r then .returned (({ s.1 with pass_cnt := s.1.pass_cnt + 1 }, w), true)
      else .returned (({ s.1 with fail_cnt := s.1.fail_cnt + 1 }, w), true)
  else
    .returned (({ s.1 with skip_cnt := s.1.skip_cnt + 1 }, s.2), true)

/-- The first half of `run_fixtures`: the counters and the state after `for_each`. -/
def run_fixtures.loop (registry : List fixture_t) (cfg : cfg_t) (w : world_t) :
    ending_t (counts_t × world_t) :=
  match fixture_t.for_each registry (run_fixtures.cb cfg)
    ({ pass_cnt := 0, fail_cnt := 0, skip_cnt := 0 }, w) with
  | .terminated w => .terminated w
  | .returned s => .returned s.1

/-- Function `run_fixtures`. -/
def run_fixtures (registry : List fixture_t) (cfg : cfg_t) (w : world_t) :
    ending_t (Bool × world_t) :=
  match run_fixtures.loop registry cfg w with
  | .terminated w => .terminated w
  | .returned (c, w) =>
    let ok :=
      if cfg.strict then (c.pass_cnt != 0 && c.fail_cnt == 0) else (c.fail_cnt == 0)
    if !ok || cfg.verbosity ≥ 1 then
      let strm := w.strm
      let strm := strm ++ "passed " ++ toString c.pass_cnt ++ separator
      let strm := strm ++ "failed " ++ toString c.fail_cnt ++ separator
      let strm := strm ++ "skipped " ++ toString c.skip_cnt ++ separator
      let strm := pf_t.write strm { ok := ok }
      .returned (ok, { w with strm := strm ++ endl })
    else .returned (ok, w)

/-- The exception of `exception` as an exception of this namespace. -/
def exception.of : lick.exception → exception
  | .leaf what => .leaf what
  | .nest what nested_ex => .nest what (exception.of nested_ex)
  | .nest_other what => .nest_other what

/-- The thrown object of `thrown_t` as a thrown object of this namespace. -/
def thrown_t.of : lick.thrown_t → thrown_t
  | .std ex => .std (exception.of ex)
  | .other => .other

/-- The fixture of the definitions above as a fixture of this namespace. -/
def fixture_t.of (fixture : lick.fixture_t) : fixture_t :=
  { loc := fixture.loc, name := fixture.name,
    fn := { body := fixture.fn.body, thrown := fixture.fn.thrown.map thrown_t.of } }

/-- Whether `std::terminate` is called while the message of the exception is written: the
innermost exception of its chain holds no cause. -/
def exception.terminates : exception → Bool
  | .leaf _ => false
  | .nest _ nested_ex => nested_ex.terminates
  | .nest_other _ => false
  | .nest_null _ => true

/-- The messages of an exception and of the causes nested in it, outermost first; a nested
cause of another type stands as the sentinel of `get_ex_msg()`. -/
def exception.messages : exception → List String
  | .leaf what => [what]
  | .nest what nested_ex => what :: nested_ex.messages
  | .nest_other what => [what, get_ex_msg_noarg]
  | .nest_null what => [what]

/-- Whether `std::terminate` is called while the boundary traps the thrown object. -/
def thrown_t.terminates : thrown_t → Bool
  | .std ex => ex.terminates
  | .other => false

end full

/-! ## Observations in which the properties are stated -/

/-- The text `on_begin_show` writes for a fixture whose banner is not yet shown. -/
def begin_banner (fixture : fixture_t) : String :=
  loc_t.write "" fixture.loc ++ separator ++ "begin " ++ bold ++ fixture.name ++ plain ++ endl

/-- The text `on_end_show` writes for a fixture whose banner is shown. -/
def end_banner (fixture : fixture_t) (ok : Bool) : String :=
  "end " ++ bold ++ fixture.name ++ plain ++ separator ++ pf_t.write "" { ok := ok } ++ endl

/-- The text the destructor of an expectation writes when it prints: its printing
statements, run on an empty stream. -/
def expectation_t.line (this : expectation_t) : String :=
  let strm := indent_t.write "" { depth := 1 }
  let strm := loc_t.write strm this.loc
  let strm := strm ++ separator
  let strm := pf_t.write strm { ok := this.ok }
  let strm := strm ++ separator
  let strm := this.predicate.write_src strm
  let (strm, _) := this.predicate.for_each_operand expectation_t.dtor.cb strm
  let extra := this.string_builder
  let strm := if extra ≠ "" then strm ++ separator ++ extra else strm
  strm ++ endl

/-- The text `fixture_t::operator()` writes when the boundary reports `msg`. -/
def exception_line (msg : String) : String :=
  indent_t.write "" { depth := 1 } ++ red ++ "exception" ++ plain ++ separator ++ msg ++ endl

/-- The text `run_fixtures` writes when it prints the summary. -/
def summary_line (c : counts_t) (ok : Bool) : String :=
  "passed " ++ toString c.pass_cnt ++ separator ++
  "failed " ++ toString c.fail_cnt ++ separator ++
  "skipped " ++ toString c.skip_cnt ++ separator ++
  pf_t.write "" { ok := ok } ++ endl

/-- The message the boundary reports for a thrown object. -/
def thrown_t.msg (t : thrown_t) : String :=
  (stall (Except.error t : Except thrown_t Unit)).msg

/-- The expectation object a statement destroys, if it is an expectation. -/
def stmt_t.expectation : stmt_t → Option expectation_t
  | .expect loc predicate extra =>
    some (extra.foldl (fun e val => e.shl val) (expectation_t.ctor loc predicate))
  | .strm _ => none

/-- The expectations a procedure evaluates, in order. -/
def fn_t.expectations (this : fn_t) : List expectation_t :=
  this.body.filterMap stmt_t.expectation

/-- Whether a statement reaches for the stream under the configuration. -/
def stmt_t.prints (cfg : cfg_t) : stmt_t → Bool
  | .expect _ predicate _ => !predicate.to_bool || decide (cfg.verbosity ≥ 2)
  | .strm _ => true

/-- The text a statement puts on the stream, the begin banner apart. -/
def stmt_t.text (cfg : cfg_t) : stmt_t → String
  | .expect loc predicate extra =>
    if !predicate.to_bool || decide (cfg.verbosity ≥ 2) then
      (extra.foldl (fun e val => e.shl val) (expectation_t.ctor loc predicate)).line
    else ""
  | .strm text => text

/-- The fixtures whose procedures were entered, in order. -/
def entered (trace : List event_t) : List fixture_t :=
  trace.filterMap (fun ev => match ev with
    | .enter fixture => some fixture
    | _ => none)

/-- The expectations whose destructors ran, in order. -/
def completions (trace : List event_t) : List expectation_t :=
  trace.filterMap (fun ev => match ev with
    | .completed e => some e
    | _ => none)

/-- The fixture invocations that returned, each with its result, in order. -/
def returns (trace : List event_t) : List (fixture_t × Bool) :=
  trace.filterMap (fun ev => match ev with
    | .leave fixture ret => some (fixture, ret)
    | _ => none)

/-- The events recorded between the state `w` and a later state `w2`. -/
def since (w w2 : world_t) : List event_t :=
  w2.trace.drop w.trace.length

/-- The messages of a `std::exception` and of the causes nested in it, outermost first; a
nested cause of another type stands as the sentinel of `get_ex_msg()`. -/
def exception.messages : exception → List String
  | .leaf what => [what]
  | .nest what nested_ex => what :: nested_ex.messages
  | .nest_other what => [what, get_ex_msg_noarg]

/-- The configurations a program can hold: made by the default constructor and changed by
`set_verbosity`, `set_regex` and `parse` (the field `verbosity` is private in the source). -/
inductive cfg_t.reachable (lib : lib_t) : cfg_t → Prop where
  | ctor (cfg : cfg_t) : cfg_t.ctor lib = .ok cfg → cfg_t.reachable lib cfg
  | set_verbosity (cfg : cfg_t) (verbosity_ : Int) :
    cfg_t.reachable lib cfg → cfg_t.reachable lib (cfg.set_verbosity verbosity_)
  | set_regex (cfg : cfg_t) (regex_ : String → Bool) :
    cfg_t.reachable lib cfg → cfg_t.reachable lib { cfg with regex := regex_ }
  | parse (cfg : cfg_t) (opts : List getopt_t) (cfg2 : cfg_t) (ok : Bool) :
    cfg_t.reachable lib cfg → cfg_t.parse lib cfg opts = .ok (cfg2, ok) →
    cfg_t.reachable lib cfg2

/-- The operands of a predicate in the order in which `for_each_operand` hands them to
its callback. -/
def predicate_t.operands : predicate_t → List any_operand_t
  | .unary _ _ operand => [operand]
  | .binary _ _ lhs rhs => [lhs, rhs]
  | .ternary _ _ lhs rhs coef => [lhs, rhs, coef]

/-- Whether a source text begins with a digit, a single quote (character 39) or a double
quote (character 34). -/
def begins_as_literal (src : String) : Bool :=
  match src.data with
  | [] => false
  | c :: _ => c.isDigit || c == Char.ofNat 39 || c == Char.ofNat 34

/-! ## Concrete inputs -/

/-- A fixture at `loc` with the body `EXPECT_EQ(2+2, 4); EXPECT_EQ(1+1, 3);`, the two
statements at `loc1` and `loc2`. -/
def two_eq_fixture (loc : loc_t) (name : String) (loc1 loc2 : loc_t) : fixture_t :=
  { loc := loc, name := name,
    fn := {
      body := [
        .expect loc1 (predicate.eq_t (as_operand "2+2" (2 + 2 : Int)) (as_operand "4" (4 : Int))) [],
        .expect loc2 (predicate.eq_t (as_operand "1+1" (1 + 1 : Int)) (as_operand "3" (3 : Int))) []],
      thrown := none } }

/-- The fixture `arith` of a file `arith.cc`. -/
def arith : fixture_t :=
  two_eq_fixture { file := "arith.cc", line := 10 } "arith"
    { file := "arith.cc", line := 11 } { file := "arith.cc", line := 12 }

/-- A fixture whose only expectation passes. -/
def sound : fixture_t :=
  { loc := { file := "sound.cc", line := 3 }, name := "sound",
    fn := {
      body := [.expect { file := "sound.cc", line := 4 }
        (predicate.true_t (as_operand "ready" true)) []],
      thrown := none } }

/-- A fixture that passes one expectation, fails one with extra text, and then throws
an exception with a nested cause. -/
def raising : fixture_t :=
  { loc := { file := "raising.cc", line := 20 }, name := "raising",
    fn := {
      body := [
        .expect { file := "raising.cc", line := 21 }
          (predicate.true_t (as_operand "ready" true)) [],
        .expect { file := "raising.cc", line := 22 }
          (predicate.lt_t (as_operand "used" (7 : Int)) (as_operand "limit" (5 : Int)))
          ["over budget"]],
      thrown := some (.std (.nest "load failed" (.leaf "no such file"))) } }

/-- The configuration that matches every name. -/
def match_all (verbosity : Int) (strict : Bool) : cfg_t :=
  { regex := fun _ => true, verbosity := verbosity, strict := strict }

/-- The configuration that matches the names starting with `s`. -/
def match_s (verbosity : Int) (strict : Bool) : cfg_t :=
  { regex := fun name => name.data.head? = some (Char.ofNat 115), verbosity := verbosity,
    strict := strict }

/-- A stand-in for the library on the patterns used below: `(` does not compile, and the
default pattern `.*` matches every name. -/
def example_lib : lib_t :=
  { regex_ctor := fun pattern =>
      if pattern = "(" then .error (.std (.leaf "regex_error")) else .ok (fun _ => true),
    atoi := fun _ => 0 }

/-- The state before anything is written. -/
def blank : world_t :=
  { strm := "", cerr := "", trace := [] }

/-- A fixture without expectations that writes a note through `lick::strm()`. -/
def chatty : fixture_t :=
  { loc := { file := "chatty.cc", line := 1 }, name := "chatty",
    fn := { body := [.strm "note\n"], thrown := none } }

/-- A fixture with an empty body. -/
def idle : fixture_t :=
  { loc := { file := "idle.cc", line := 1 }, name := "idle",
    fn := { body := [], thrown := none } }

/-- A fixture whose body throws at once: `throw std::runtime_error("boom");`. -/
def thrower : fixture_t :=
  { loc := { file := "thrower.cc", line := 5 }, name := "thrower",
    fn := { body := [], thrown := some (.std (.leaf "boom")) } }

/-- A fixture that passes one expectation and then throws an object that is no
`std::exception`. -/
def careless : fixture_t :=
  { loc := { file := "careless.cc", line := 8 }, name := "careless",
    fn := {
      body := [.expect { file := "careless.cc", line := 9 }
        (predicate.eq_t (as_operand "2+2" (2 + 2 : Int)) (as_operand "4" (4 : Int))) []],
      thrown := some .other } }

/-- A fixture that passes one expectation and writes a note through `lick::strm()`. -/
def noting : fixture_t :=
  { loc := { file := "noting.cc", line := 2 }, name := "noting",
    fn := {
      body := [
        .expect { file := "noting.cc", line := 3 }
          (predicate.eq_t (as_operand "2+2" (2 + 2 : Int)) (as_operand "4" (4 : Int))) [],
        .strm "half way\n"],
      thrown := none } }

/-- A fixture whose three expectations pass, one of them with extra text. -/
def steady : fixture_t :=
  { loc := { file := "steady.cc", line := 2 }, name := "steady",
    fn := {
      body := [
        .expect { file := "steady.cc", line := 3 }
          (predicate.eq_t (as_operand "2+2" (2 + 2 : Int)) (as_operand "4" (4 : Int))) [],
        .expect { file := "steady.cc", line := 4 }
          (predicate.le_t (as_operand "used" (3 : Int)) (as_operand "limit" (5 : Int)))
          ["within ", "budget"],
        .expect { file := "steady.cc", line := 5 }
          (predicate.false_t (as_operand "stale" false)) []],
      thrown := none } }

/-- A fixture without expectations that calls `lick::strm()` and writes nothing to the
stream it gets. -/
def peeking : fixture_t :=
  { loc := { file := "peeking.cc", line := 1 }, name := "peeking",
    fn := { body := [.strm ""], thrown := none } }

/-- A fixture that passes one expectation and calls `lick::strm()` without writing to the
stream it gets. -/
def glancing : fixture_t :=
  { loc := { file := "glancing.cc", line := 2 }, name := "glancing",
    fn := {
      body := [
        .expect { file := "glancing.cc", line := 3 }
          (predicate.eq_t (as_operand "2+2" (2 + 2 : Int)) (as_operand "4" (4 : Int))) [],
        .strm ""],
      thrown := none } }

/-- A fixture that passes one expectation, fails one, and then calls
`std::throw_with_nested(std::runtime_error("boom"))` outside of a handler. -/
def full.aborter : full.fixture_t :=
  { loc := { file := "aborter.cc", line := 30 }, name := "aborter",
    fn := {
      body := [
        .expect { file := "aborter.cc", line := 31 }
          (predicate.true_t (as_operand "ready" true)) [],
        .expect { file := "aborter.cc", line := 32 }
          (predicate.lt_t (as_operand "used" (7 : Int)) (as_operand "limit" (5 : Int))) []],
      thrown := some (.std (.nest_null "boom")) } }

/-! ## Every writer appends to the stream -/

theorem pf_t.pf_write_append (strm : String) (that : pf_t) :
    pf_t.write strm that = strm ++ pf_t.write "" that := by
  unfold pf_t.write
  cases that.ok <;> simp [String.append_assoc]

theorem indent_t.indent_loop_append (n : Nat) (strm : String) :
    indent_t.loop n strm = strm ++ indent_t.loop n "" := by
  induction n generalizing strm with
  | zero => simp [indent_t.loop]
  | succ n ih =>
    simp only [indent_t.loop]
    rw [ih (strm ++ "  "), ih ("" ++ "  ")]
    simp [String.append_assoc]

theorem indent_t.indent_write_append (strm : String) (that : indent_t) :
    indent_t.write strm that = strm ++ indent_t.write "" that := by
  unfold indent_t.write
  exact indent_t.indent_loop_append _ _

theorem loc_t.loc_write_append (strm : String) (that : loc_t) :
    loc_t.write strm that = strm ++ loc_t.write "" that := by
  simp [loc_t.write, String.append_assoc]

theorem predicate_t.write_src_append (this : predicate_t) (strm : String) :
    this.write_src strm = strm ++ this.write_src "" := by
  cases this <;>
    simp only [predicate_t.write_src, predicate_t.for_each_operand, predicate_t.get_name,
      any_operand_t.write_src] <;>
    split_ifs <;> simp_all [String.append_assoc]

theorem expectation_t.dtor.cb_append (strm : String) (operand : any_operand_t) :
    expectation_t.dtor.cb strm operand =
      (strm ++ (expectation_t.dtor.cb "" operand).1, true) := by
  simp only [expectation_t.dtor.cb]
  split_ifs <;> simp [any_operand_t.write_val, String.append_assoc]

theorem predicate_t.dump_append (this : predicate_t) (strm : String) :
    (this.for_each_operand expectation_t.dtor.cb strm).1 =
      strm ++ (this.for_each_operand expectation_t.dtor.cb "").1 := by
  cases this with
  | unary ok name operand =>
    simp only [predicate_t.for_each_operand]
    rw [expectation_t.dtor.cb_append]
  | binary ok name lhs rhs =>
    simp only [predicate_t.for_each_operand]
    rw [expectation_t.dtor.cb_append strm lhs, expectation_t.dtor.cb_append "" lhs]
    simp only [if_true]
    rw [expectation_t.dtor.cb_append _ rhs, expectation_t.dtor.cb_append ("" ++ _) rhs]
    simp [String.append_assoc]
  | ternary ok name lhs rhs coef =>
    simp only [predicate_t.for_each_operand]
    rw [expectation_t.dtor.cb_append strm lhs, expectation_t.dtor.cb_append "" lhs]
    simp only [if_true]
    rw [expectation_t.dtor.cb_append _ rhs, expectation_t.dtor.cb_append ("" ++ _) rhs]
    simp only [if_true]
    rw [expectation_t.dtor.cb_append _ coef, expectation_t.dtor.cb_append ("" ++ _ ++ _) coef]
    simp [String.append_assoc]

theorem ctxt_t.on_begin_show_eq (this : ctxt_t) (w : world_t) :
    this.on_begin_show w =
      ({ this with showing := true },
       { w with strm := w.strm ++ (if this.showing then "" else begin_banner this.fixture) }) := by
  unfold ctxt_t.on_begin_show begin_banner
  cases h : this.showing
  · simp [loc_t.loc_write_append w.strm, String.append_assoc]
  · simp [← h]

theorem ctxt_t.on_end_show_eq (this : ctxt_t) (w : world_t) :
    this.on_end_show w =
      { w with strm := w.strm ++ (if this.showing then end_banner this.fixture this.ok else "") } := by
  unfold ctxt_t.on_end_show end_banner
  cases h : this.showing
  · simp
  · simp [pf_t.pf_write_append (w.strm ++ _), String.append_assoc]

theorem expectation_t.dtor_eq (this : expectation_t) (ctxt : ctxt_t) (w : world_t) :
    this.dtor ctxt w =
      ({ ctxt with
          showing := ctxt.showing || (!this.ok || decide (ctxt.cfg.verbosity ≥ 2)),
          ok := ctxt.ok && this.ok },
       { w with
          strm := w.strm ++
            (if !this.ok || decide (ctxt.cfg.verbosity ≥ 2) then
              (if ctxt.showing then "" else begin_banner ctxt.fixture) ++ this.line
            else ""),
          trace := w.trace ++ [event_t.completed this] }) := by
  have hline : ∀ s : String, s ++ this.line =
      (let strm := indent_t.write s { depth := 1 }
       let strm := loc_t.write strm this.loc
       let strm := strm ++ separator
       let strm := pf_t.write strm { ok := this.ok }
       let strm := strm ++ separator
       let strm := this.predicate.write_src strm
       let strm := (this.predicate.for_each_operand expectation_t.dtor.cb strm).1
       let strm := if this.string_builder ≠ "" then strm ++ separator ++ this.string_builder
         else strm
       strm ++ endl) := by
    intro s
    simp only [expectation_t.line]
    rw [predicate_t.dump_append, predicate_t.write_src_append, pf_t.pf_write_append,
      loc_t.loc_write_append, indent_t.indent_write_append s]
    conv_rhs => rw [predicate_t.dump_append, predicate_t.write_src_append, pf_t.pf_write_append,
      loc_t.loc_write_append]
    split_ifs <;> simp [String.append_assoc]
  have hl := hline (w.strm ++ if ctxt.showing then "" else begin_banner ctxt.fixture)
  rw [String.append_assoc] at hl
  unfold expectation_t.dtor
  simp only [ctxt_t.get_strm, ctxt_t.on_begin_show_eq, ctxt_t.fail]
  cases hok : this.ok
  · simp only [hok] at hl
    simp [hl]
  · by_cases hv : ctxt.cfg.verbosity ≥ 2
    · simp only [hok] at hl
      simp [hl, hv]
    · simp [hv]


theorem join_cons (a : String) (l : List String) :
    String.join (a :: l) = a ++ String.join l := by
  apply String.ext
  simp [String.join_eq]

theorem join_append (l₁ l₂ : List String) :
    String.join (l₁ ++ l₂) = String.join l₁ ++ String.join l₂ := by
  apply String.ext
  simp [String.join_eq]

theorem expectation_t.foldl_shl (extra : List String) (e : expectation_t) :
    (extra.foldl (fun e val => e.shl val) e).ok = e.ok ∧
    (extra.foldl (fun e val => e.shl val) e).loc = e.loc ∧
    (extra.foldl (fun e val => e.shl val) e).predicate = e.predicate := by
  induction extra generalizing e with
  | nil => simp
  | cons val rest ih =>
    simp only [List.foldl_cons]
    have := ih (e.shl val)
    simpa [expectation_t.shl] using this

theorem stmt_t.text_of_not_prints (cfg : cfg_t) (stmt : stmt_t)
    (h : stmt.prints cfg = false) : stmt.text cfg = "" := by
  cases stmt with
  | expect loc predicate extra =>
    simp only [stmt_t.prints] at h
    simp [stmt_t.text, h]
  | strm text => simp [stmt_t.prints] at h

theorem stmt_t.exec_eq (s : ctxt_t × world_t) (stmt : stmt_t) :
    stmt_t.exec s stmt =
      ({ s.1 with
          showing := s.1.showing || stmt.prints s.1.cfg,
          ok := s.1.ok && stmt.expectation.all (fun e => e.ok) },
       { s.2 with
          strm := s.2.strm ++
            (if !s.1.showing && stmt.prints s.1.cfg then begin_banner s.1.fixture else "") ++
            stmt.text s.1.cfg,
          trace := s.2.trace ++ stmt.expectation.toList.map event_t.completed }) := by
  obtain ⟨ctxt, w⟩ := s
  cases stmt with
  | expect loc predicate extra =>
    have h := (expectation_t.foldl_shl extra (expectation_t.ctor loc predicate)).1
    simp only [stmt_t.exec, expectation_t.dtor_eq, stmt_t.prints, stmt_t.expectation,
      stmt_t.text]
    generalize List.foldl (fun e val => e.shl val) (expectation_t.ctor loc predicate) extra = e
      at h ⊢
    simp only [expectation_t.ctor] at h
    simp only [h]
    cases hs : ctxt.showing <;> cases hp : predicate.to_bool <;>
      by_cases hv : ctxt.cfg.verbosity ≥ 2 <;> simp [hv, String.append_assoc, h, hp]
  | strm text =>
    simp only [stmt_t.exec, ctxt_t.get_strm, ctxt_t.on_begin_show_eq, stmt_t.prints,
      stmt_t.expectation, stmt_t.text]
    cases hs : ctxt.showing <;> simp

theorem stmt_t.foldl_exec_eq (body : List stmt_t) (ctxt : ctxt_t) (w : world_t) :
    body.foldl stmt_t.exec (ctxt, w) =
      ({ ctxt with
          showing := ctxt.showing || body.any (stmt_t.prints ctxt.cfg),
          ok := ctxt.ok && (body.filterMap stmt_t.expectation).all (fun e => e.ok) },
       { w with
          strm := w.strm ++
            (if !ctxt.showing && body.any (stmt_t.prints ctxt.cfg) then
              begin_banner ctxt.fixture else "") ++
            String.join (body.map (stmt_t.text ctxt.cfg)),
          trace := w.trace ++ (body.filterMap stmt_t.expectation).map event_t.completed }) := by
  induction body generalizing ctxt w with
  | nil => simp [String.join]
  | cons stmt rest ih =>
    simp only [List.foldl_cons, stmt_t.exec_eq, ih, List.map_cons, join_cons]
    have ht := stmt_t.text_of_not_prints ctxt.cfg stmt
    cases hs : ctxt.showing <;> cases hp : stmt.prints ctxt.cfg <;>
      cases he : stmt.expectation <;>
      simp [hp, he, String.append_assoc, Bool.and_assoc, ht]


theorem fixture_t.call_eq (this : fixture_t) (cfg : cfg_t) (w : world_t) :
    this.call cfg w =
      (this.fn.thrown.isNone && this.fn.expectations.all (fun e => e.ok),
       { w with
          strm := w.strm ++
            (if decide (cfg.verbosity ≥ 2) || this.fn.body.any (stmt_t.prints cfg) then
              begin_banner this else "") ++
            String.join (this.fn.body.map (stmt_t.text cfg)) ++
            (match this.fn.thrown with
              | some t => exception_line t.msg
              | none => "") ++
            (if decide (cfg.verbosity ≥ 2) || this.fn.body.any (stmt_t.prints cfg) then
              end_banner this (this.fn.expectations.all (fun e => e.ok)) else ""),
          trace := w.trace ++ [event_t.enter this] ++
            this.fn.expectations.map event_t.completed ++
            [event_t.leave this
              (this.fn.thrown.isNone && this.fn.expectations.all (fun e => e.ok))] }) := by
  unfold fixture_t.call ctxt_t.ctor fn_t.call
  simp only [ctxt_t.on_begin_show_eq, ctxt_t.dtor, ctxt_t.on_end_show_eq, fn_t.expectations,
    ctxt_t.to_bool, stalled_t.to_bool, exception_line, thrown_t.msg]
  by_cases hv : cfg.verbosity ≥ 2
  · simp only [hv, if_true, stmt_t.foldl_exec_eq]
    cases ht : this.fn.thrown with
    | none => simp [stall, String.append_assoc]
    | some t =>
      cases t <;> simp [stall, String.append_assoc, indent_t.indent_write_append (w.strm ++ _)]
  · simp only [hv, if_false, stmt_t.foldl_exec_eq]
    cases ht : this.fn.thrown with
    | none => 
      cases hp : this.fn.body.any (stmt_t.prints cfg) <;> simp [stall, String.append_assoc, hp]
    | some t =>
      cases hp : this.fn.body.any (stmt_t.prints cfg) <;>
      cases t <;> simp [stall, String.append_assoc, indent_t.indent_write_append (w.strm ++ _), hp]


/-! ## The loop of the run driver -/

theorem entered_append (a b : List event_t) : entered (a ++ b) = entered a ++ entered b := by
  simp [entered]

theorem returns_append (a b : List event_t) : returns (a ++ b) = returns a ++ returns b := by
  simp [returns]

theorem completions_append (a b : List event_t) :
    completions (a ++ b) = completions a ++ completions b := by
  simp [completions]

theorem entered_completed (es : List expectation_t) :
    entered (es.map event_t.completed) = [] := by
  induction es with
  | nil => rfl
  | cons e es ih => simp [entered]

theorem returns_completed (es : List expectation_t) :
    returns (es.map event_t.completed) = [] := by
  induction es with
  | nil => rfl
  | cons e es ih => simp [returns]

theorem completions_completed (es : List expectation_t) :
    completions (es.map event_t.completed) = es := by
  induction es with
  | nil => rfl
  | cons e es ih => simpa [completions] using ih

theorem since_append (w w2 : world_t) (tr : List event_t) (h : w2.trace = w.trace ++ tr) :
    since w w2 = tr := by
  simp [since, h]

/-- What one invocation of a fixture adds to the record. -/
theorem fixture_t.call_trace (this : fixture_t) (cfg : cfg_t) (w : world_t) :
    ∃ tr : List event_t,
      (this.call cfg w).2.trace = w.trace ++ tr ∧
      entered tr = [this] ∧
      returns tr = [(this, (this.call cfg w).1)] ∧
      completions tr = this.fn.expectations := by
  refine ⟨[event_t.enter this] ++ this.fn.expectations.map event_t.completed ++
    [event_t.leave this (this.call cfg w).1], ?_, ?_, ?_, ?_⟩
  · rw [fixture_t.call_eq]; simp
  · simp only [entered_append, entered_completed]; rfl
  · simp only [returns_append, returns_completed]; rfl
  · simp only [completions_append, completions_completed]; simp [completions]

theorem run_fixtures.cb_eq (cfg : cfg_t) (s : counts_t × world_t) (fixture : fixture_t) :
    run_fixtures.cb cfg s fixture =
      ((if cfg.regex fixture.name then
          ((if (fixture.call cfg s.2).1 then { s.1 with pass_cnt := s.1.pass_cnt + 1 }
            else { s.1 with fail_cnt := s.1.fail_cnt + 1 }), (fixture.call cfg s.2).2)
        else ({ s.1 with skip_cnt := s.1.skip_cnt + 1 }, s.2)), true) := by
  unfold run_fixtures.cb
  split_ifs <;> simp_all

theorem run_fixtures.for_each_eq (registry : List fixture_t) (cfg : cfg_t)
    (s : counts_t × world_t) :
    fixture_t.for_each registry (run_fixtures.cb cfg) s =
      (registry.foldl (fun s fixture => (run_fixtures.cb cfg s fixture).1) s, true) := by
  induction registry generalizing s with
  | nil => rfl
  | cons fixture next ih =>
    simp only [fixture_t.for_each, List.foldl_cons]
    rw [← ih]
    simp [run_fixtures.cb_eq]

theorem run_fixtures.run_loop_append (l₁ l₂ : List fixture_t) (cfg : cfg_t) (w : world_t) :
    run_fixtures.loop (l₁ ++ l₂) cfg w =
      (fixture_t.for_each l₂ (run_fixtures.cb cfg) (run_fixtures.loop l₁ cfg w)).1 := by
  simp [run_fixtures.loop, run_fixtures.for_each_eq, List.foldl_append]

/-- The state of the loop after a registry, from any counters and any state. -/
theorem run_fixtures.for_each_spec (registry : List fixture_t) (cfg : cfg_t)
    (c : counts_t) (w : world_t) :
    ∃ tr : List event_t,
      (fixture_t.for_each registry (run_fixtures.cb cfg) (c, w)).1.2.trace = w.trace ++ tr ∧
      entered tr = registry.filter (fun f => cfg.regex f.name) ∧
      (returns tr).map Prod.fst = registry.filter (fun f => cfg.regex f.name) ∧
      (fixture_t.for_each registry (run_fixtures.cb cfg) (c, w)).1.1.pass_cnt =
        c.pass_cnt + (returns tr).countP (fun r => r.2) ∧
      (fixture_t.for_each registry (run_fixtures.cb cfg) (c, w)).1.1.fail_cnt =
        c.fail_cnt + (returns tr).countP (fun r => !r.2) ∧
      (fixture_t.for_each registry (run_fixtures.cb cfg) (c, w)).1.1.skip_cnt =
        c.skip_cnt + registry.countP (fun f => !cfg.regex f.name) := by
  induction registry generalizing c w with
  | nil => exact ⟨[], by simp [fixture_t.for_each, entered, returns]⟩
  | cons fixture next ih =>
    simp only [run_fixtures.for_each_eq, List.foldl_cons] at ih ⊢
    by_cases hm : cfg.regex fixture.name = true
    · obtain ⟨tr0, g1, g2, g3, _⟩ := fixture_t.call_trace fixture cfg w
      cases hr : (fixture.call cfg w).1
      · have hstep : (run_fixtures.cb cfg (c, w) fixture).1 =
            ({ c with fail_cnt := c.fail_cnt + 1 }, (fixture.call cfg w).2) := by
          simp [run_fixtures.cb_eq, hm, hr]
        obtain ⟨tr, h1, h2, h3, h4, h5, h6⟩ :=
          ih { c with fail_cnt := c.fail_cnt + 1 } (fixture.call cfg w).2
        rw [hstep]
        refine ⟨tr0 ++ tr, ?_, ?_, ?_, ?_, ?_, ?_⟩
        · rw [← List.append_assoc, ← g1]; exact h1
        · simp [entered_append, g2, h2, hm]
        · simp [returns_append, g3, h3, hm]
        · rw [h4]; simp [returns_append, g3, hr]
        · rw [h5]; simp [returns_append, g3, hr]; omega
        · rw [h6]; simp [hm]
      · have hstep : (run_fixtures.cb cfg (c, w) fixture).1 =
            ({ c with pass_cnt := c.pass_cnt + 1 }, (fixture.call cfg w).2) := by
          simp [run_fixtures.cb_eq, hm, hr]
        obtain ⟨tr, h1, h2, h3, h4, h5, h6⟩ :=
          ih { c with pass_cnt := c.pass_cnt + 1 } (fixture.call cfg w).2
        rw [hstep]
        refine ⟨tr0 ++ tr, ?_, ?_, ?_, ?_, ?_, ?_⟩
        · rw [← List.append_assoc, ← g1]; exact h1
        · simp [entered_append, g2, h2, hm]
        · simp [returns_append, g3, h3, hm]
        · rw [h4]; simp [returns_append, g3, hr]; omega
        · rw [h5]; simp [returns_append, g3, hr]
        · rw [h6]; simp [hm]
    · have hstep : (run_fixtures.cb cfg (c, w) fixture).1 =
          ({ c with skip_cnt := c.skip_cnt + 1 }, w) := by
        simp [run_fixtures.cb_eq, hm]
      obtain ⟨tr, h1, h2, h3, h4, h5, h6⟩ :=
        ih { c with skip_cnt := c.skip_cnt + 1 } w
      rw [hstep]
      refine ⟨tr, h1, ?_, ?_, h4, h5, ?_⟩
      · simp [h2, hm]
      · simp [h3, hm]
      · rw [h6]; simp [hm]; omega


theorem run_fixtures.loop_spec (registry : List fixture_t) (cfg : cfg_t) (w : world_t) :
    ∃ tr : List event_t,
      (run_fixtures.loop registry cfg w).2.trace = w.trace ++ tr ∧
      entered tr = registry.filter (fun f => cfg.regex f.name) ∧
      (returns tr).map Prod.fst = registry.filter (fun f => cfg.regex f.name) ∧
      (run_fixtures.loop registry cfg w).1.pass_cnt = (returns tr).countP (fun r => r.2) ∧
      (run_fixtures.loop registry cfg w).1.fail_cnt = (returns tr).countP (fun r => !r.2) ∧
      (run_fixtures.loop registry cfg w).1.skip_cnt =
        registry.countP (fun f => !cfg.regex f.name) := by
  obtain ⟨tr, h⟩ := run_fixtures.for_each_spec registry cfg
    { pass_cnt := 0, fail_cnt := 0, skip_cnt := 0 } w
  exact ⟨tr, by simpa [run_fixtures.loop] using h⟩

theorem run_fixtures.trace_eq (registry : List fixture_t) (cfg : cfg_t) (w : world_t) :
    (run_fixtures registry cfg w).2.trace = (run_fixtures.loop registry cfg w).2.trace := by
  unfold run_fixtures
  simp only
  split_ifs <;> rfl

theorem run_fixtures.fst_eq (registry : List fixture_t) (cfg : cfg_t) (w : world_t) :
    (run_fixtures registry cfg w).1 =
      (if cfg.strict then
        ((run_fixtures.loop registry cfg w).1.pass_cnt != 0 &&
          (run_fixtures.loop registry cfg w).1.fail_cnt == 0)
      else ((run_fixtures.loop registry cfg w).1.fail_cnt == 0)) := by
  unfold run_fixtures
  simp only
  split_ifs <;> rfl

theorem run_fixtures.strm_eq (registry : List fixture_t) (cfg : cfg_t) (w : world_t) :
    (run_fixtures registry cfg w).2.strm =
      (run_fixtures.loop registry cfg w).2.strm ++
        (if !(run_fixtures registry cfg w).1 || decide (cfg.verbosity ≥ 1) then
          summary_line (run_fixtures.loop registry cfg w).1 (run_fixtures registry cfg w).1
        else "") := by
  unfold run_fixtures
  simp only [pf_t.pf_write_append (_ ++ _), summary_line]
  split_ifs <;> simp_all [String.append_assoc]

/-! ## Further lemmas on texts and statements -/

theorem indent_one : indent_t.write "" { depth := 1 } = "  " := by decide

theorem expectation_t.line_ne_empty (this : expectation_t) : this.line ≠ "" := by
  intro h
  have := congrArg String.length h
  simp only [expectation_t.line, endl, String.length_append] at this
  have h1 : "\n".length = 1 := by decide
  have h0 : "".length = 0 := by decide
  omega

theorem append_ne_self (s t : String) (h : t ≠ "") : s ++ t ≠ s := by
  intro e
  have := congrArg String.length e
  simp only [String.length_append] at this
  have ht : t.length = 0 := by omega
  apply h
  apply String.ext
  exact List.length_eq_zero.mp ht

theorem stmt_t.of_expectation (cfg : cfg_t) (stmt : stmt_t) (e : expectation_t)
    (h : stmt.expectation = some e) :
    stmt.text cfg = (if !e.ok || decide (cfg.verbosity ≥ 2) then e.line else "") ∧
    stmt.prints cfg = (!e.ok || decide (cfg.verbosity ≥ 2)) := by
  cases stmt with
  | expect loc predicate extra =>
    have hk := (expectation_t.foldl_shl extra (expectation_t.ctor loc predicate)).1
    simp only [stmt_t.expectation, Option.some.injEq] at h
    subst h
    simp only [expectation_t.ctor] at hk
    simp only [stmt_t.text, stmt_t.prints, hk, expectation_t.ctor]
    exact ⟨trivial, trivial⟩
  | strm text => simp [stmt_t.expectation] at h

theorem stmt_t.body_of_expectations (cfg : cfg_t) (body : List stmt_t)
    (h : ∀ stmt ∈ body, stmt.expectation ≠ none) :
    body.map (stmt_t.text cfg) =
      (body.filterMap stmt_t.expectation).map
        (fun e => if !e.ok || decide (cfg.verbosity ≥ 2) then e.line else "") ∧
    body.any (stmt_t.prints cfg) =
      (body.filterMap stmt_t.expectation).any (fun e => !e.ok || decide (cfg.verbosity ≥ 2)) ∧
    (body.filterMap stmt_t.expectation).length = body.length := by
  induction body with
  | nil => simp
  | cons stmt rest ih =>
    have hrest := ih (fun s hs => h s (List.mem_cons_of_mem _ hs))
    have hstmt := h stmt (List.mem_cons_self _ _)
    cases he : stmt.expectation with
    | none => exact absurd he hstmt
    | some e =>
      obtain ⟨ht, hp⟩ := stmt_t.of_expectation cfg stmt e he
      simp [List.filterMap_cons, he, ht, hp, hrest.1, hrest.2.1, hrest.2.2]

/-! ## Flattened messages and configurations -/

theorem intercalate_go_append (x acc s : String) (l : List String) :
    String.intercalate.go (x ++ acc) s l = x ++ String.intercalate.go acc s l := by
  induction l generalizing acc with
  | nil => rfl
  | cons a l ih =>
    simp only [String.intercalate.go]
    rw [← ih]
    simp [String.append_assoc]

theorem intercalate_cons_cons (s a b : String) (l : List String) :
    String.intercalate s (a :: b :: l) = a ++ s ++ String.intercalate s (b :: l) := by
  simp only [String.intercalate, String.intercalate.go]
  rw [intercalate_go_append]

theorem exception.messages_ne_nil (ex : exception) : ex.messages ≠ [] := by
  cases ex <;> simp [exception.messages]

theorem write_ex_eq (strm : String) (ex : exception) (is_nested : Bool) :
    write_ex strm ex is_nested =
      strm ++ (if is_nested then separator else "") ++
        String.intercalate separator ex.messages := by
  induction ex generalizing strm is_nested with
  | leaf what =>
    cases is_nested <;> simp [write_ex, exception.messages, String.intercalate,
      String.intercalate.go]
  | nest what nested_ex ih =>
    simp only [write_ex, exception.messages]
    rw [ih]
    obtain ⟨b, l, hl⟩ : ∃ b l, nested_ex.messages = b :: l := by
      cases h : nested_ex.messages with
      | nil => exact absurd h nested_ex.messages_ne_nil
      | cons b l => exact ⟨b, l, rfl⟩
    rw [hl, intercalate_cons_cons]
    cases is_nested <;> simp [String.append_assoc]
  | nest_other what =>
    cases is_nested <;> simp [write_ex, exception.messages, String.intercalate,
      String.intercalate.go, String.append_assoc]

theorem cfg_t.parse_verbosity (lib : lib_t) (opts : List getopt_t) (cfg cfg2 : cfg_t)
    (ok : Bool) (h : cfg_t.parse lib cfg opts = .ok (cfg2, ok))
    (hv : 0 ≤ cfg.verbosity ∧ cfg.verbosity ≤ 2) :
    0 ≤ cfg2.verbosity ∧ cfg2.verbosity ≤ 2 := by
  induction opts generalizing cfg with
  | nil =>
    simp only [cfg_t.parse, Except.ok.injEq, Prod.mk.injEq] at h
    rw [← h.1]; exact hv
  | cons opt rest ih =>
    cases opt with
    | n optarg =>
      simp only [cfg_t.parse] at h
      cases hr : lib.regex_ctor optarg with
      | error t => simp [hr] at h
      | ok regex =>
        simp only [hr] at h
        exact ih _ h hv
    | s =>
      simp only [cfg_t.parse] at h
      exact ih _ h hv
    | v optarg =>
      simp only [cfg_t.parse] at h
      refine ih _ h ?_
      simp only [cfg_t.set_verbosity]
      split_ifs <;> omega
    | unrecognized =>
      simp only [cfg_t.parse, Except.ok.injEq, Prod.mk.injEq] at h
      rw [← h.1]; exact hv

/-! ## Expectation lines and banners -/

theorem begins_as_literal_eq (src : String) :
    (!(deref src).isDigit && decide (deref src ≠ Char.ofNat 39) &&
      decide (deref src ≠ Char.ofNat 34)) = !begins_as_literal src := by
  unfold begins_as_literal deref
  generalize src.data = d
  cases d with
  | nil => decide
  | cons c cs =>
    simp only [List.headD_cons]
    by_cases hd : c.isDigit = true <;> by_cases h1 : c = Char.ofNat 39 <;>
      by_cases h2 : c = Char.ofNat 34 <;> simp [hd, h1, h2]

theorem expectation_t.dtor.cb_field_eq (strm : String) (operand : any_operand_t) :
    expectation_t.dtor.cb strm operand =
      (strm ++ (if begins_as_literal operand.src then ""
        else separator ++ operand.src ++ "=" ++ operand.val), true) := by
  simp only [expectation_t.dtor.cb, begins_as_literal_eq, any_operand_t.write_val]
  cases begins_as_literal operand.src <;> simp [String.append_assoc]

theorem predicate_t.dump_eq (this : predicate_t) (strm : String) :
    (this.for_each_operand expectation_t.dtor.cb strm).1 =
      strm ++ String.join (this.operands.map (fun operand =>
        if begins_as_literal operand.src then ""
        else separator ++ operand.src ++ "=" ++ operand.val)) := by
  cases this <;>
    simp [predicate_t.for_each_operand, predicate_t.operands, expectation_t.dtor.cb_field_eq,
      join_cons, String.join, String.append_assoc]

theorem predicate_t.write_src_eq (this : predicate_t) (strm : String) :
    this.write_src strm =
      strm ++ "EXPECT" ++
        (if deref this.get_name = Char.ofNat 0 then "" else "_" ++ this.get_name) ++
        "(" ++ String.intercalate ", " (this.operands.map (fun operand => operand.src)) ++
        ")" := by
  cases this <;>
    simp only [predicate_t.write_src, predicate_t.for_each_operand, predicate_t.get_name,
      any_operand_t.write_src, predicate_t.operands, List.map, String.intercalate,
      String.intercalate.go] <;>
    split_ifs <;> simp_all [String.append_assoc] <;>
    congr 1

theorem registry_t.holds_length (r : registry_t) (fixtures : List fixture_t)
    (h : r.holds fixtures) : r.objects.length = fixtures.length := by
  have h1 := h.1 fixtures.length
  have h2 := h.1 r.objects.length
  simp only [List.getElem?_eq_none (Nat.le_refl _), Option.map_none'] at h1 h2
  rw [List.getElem?_eq_none_iff] at h1
  have h3 := h2.symm
  rw [Option.map_eq_none', List.getElem?_eq_none_iff] at h3
  omega

theorem registry_t.holds_init : registry_t.init.holds [] := by
  refine ⟨fun i => ?_, rfl, rfl⟩
  simp [registry_t.init]

theorem registry_t.holds_ctor (r : registry_t) (fixtures : List fixture_t)
    (h : r.holds fixtures) (loc_ : loc_t) (name_ : String) (fn_ : fn_t) :
    (r.ctor loc_ name_ fn_).holds
      (fixtures ++ [{ loc := loc_, name := name_, fn := fn_ }]) := by
  have hlen := registry_t.holds_length r fixtures h
  obtain ⟨hobj, hfirst, hlast⟩ := h
  by_cases h0 : fixtures.length = 0
  · have hnil : fixtures = [] := List.length_eq_zero.mp h0
    subst hnil
    have hobjs : r.objects = [] := List.length_eq_zero.mp (by simpa using hlen)
    simp only [List.length_nil, if_true] at hlast
    refine ⟨fun i => ?_, ?_, ?_⟩
    · simp only [registry_t.ctor, hlast, hobjs]
      cases i <;> simp
    · simp [registry_t.ctor, hlast, hobjs]
    · simp [registry_t.ctor, hlast, hobjs]
  · simp only [h0, if_false] at hfirst hlast
    refine ⟨fun i => ?_, ?_, ?_⟩
    · simp only [registry_t.ctor, hlast, List.getElem?_modify, List.length_append,
        List.length_singleton, List.getElem?_append, hlen]
      by_cases hi : i < fixtures.length
      · simp only [hi, if_true, hobj i]
        rw [List.getElem?_eq_getElem hi]
        by_cases hl : fixtures.length - 1 = i
        · have : ¬ i + 1 < fixtures.length := by omega
          simp [hl, this]
          omega
        · have : i + 1 < fixtures.length := by omega
          simp [hl, this]
          omega
      · simp only [hi, if_false]
        by_cases hl : i = fixtures.length
        · subst hl
          have : ¬ fixtures.length - 1 = fixtures.length := by omega
          simp [this]
        · have h1 : 0 < i - fixtures.length := by omega
          have h2 : ([] : List fixture_t)[i - fixtures.length - 1]? = none := by simp
          cases hk : i - fixtures.length with
          | zero => omega
          | succ k => simp
    · simp [registry_t.ctor, hlast, hfirst]
    · simp [registry_t.ctor, hlast, hlen]

theorem registry_t.holds_foldl (fixtures done : List fixture_t) (r : registry_t)
    (h : r.holds done) :
    (fixtures.foldl (fun r fixture => r.ctor fixture.loc fixture.name fixture.fn) r).holds
      (done ++ fixtures) := by
  induction fixtures generalizing done r with
  | nil => simpa using h
  | cons fixture rest ih =>
    simp only [List.foldl_cons]
    have := ih (done ++ [fixture]) _ (registry_t.holds_ctor r done h fixture.loc fixture.name
      fixture.fn)
    simpa using this

theorem registry_t.holds_register (fixtures : List fixture_t) :
    (registry_t.register fixtures).holds fixtures := by
  have := registry_t.holds_foldl fixtures [] registry_t.init registry_t.holds_init
  simpa [registry_t.register] using this

theorem registry_t.for_each_from_eq {σ : Type} (r : registry_t) (fixtures : List fixture_t)
    (h : r.holds fixtures) (cb : σ → fixture_t → σ × Bool) (n : Nat) :
    ∀ (i fuel : Nat) (s : σ), i + n = fixtures.length → n ≤ fuel →
      r.for_each_from cb fuel (if i < fixtures.length then some i else none) s =
        some (fixture_t.for_each (fixtures.drop i) cb s) := by
  induction n with
  | zero =>
    intro i fuel s hi _
    have : ¬ i < fixtures.length := by omega
    rw [if_neg this, List.drop_of_length_le (by omega)]
    cases fuel <;> rfl
  | succ n ih =>
    intro i fuel s hi hfuel
    have hlt : i < fixtures.length := by omega
    obtain ⟨fuel, rfl⟩ : ∃ k, fuel = k + 1 := ⟨fuel - 1, by omega⟩
    rw [if_pos hlt, List.drop_eq_getElem_cons hlt]
    simp only [registry_t.for_each_from, h.1 i, List.getElem?_eq_getElem hlt, Option.map_some',
      fixture_t.for_each]
    by_cases hb : (cb s fixtures[i]).2 = true
    · simp only [hb, Bool.not_true, Bool.false_eq_true, if_false]
      exact ih (i + 1) fuel _ (by omega) (by omega)
    · simp [hb]

theorem registry_t.linked_for_each_eq {σ : Type} (r : registry_t) (fixtures : List fixture_t)
    (h : r.holds fixtures) (cb : σ → fixture_t → σ × Bool) (fuel : Nat) (s : σ)
    (hfuel : fixtures.length ≤ fuel) :
    r.for_each cb fuel s = some (fixture_t.for_each fixtures cb s) := by
  have := registry_t.for_each_from_eq r fixtures h cb fixtures.length 0 fuel s (by omega) hfuel
  rw [registry_t.for_each, h.2.1]
  by_cases h0 : fixtures.length = 0
  · have h1 : ¬ 0 < fixtures.length := by omega
    simpa [h0, h1] using this
  · have h1 : 0 < fixtures.length := by omega
    simpa [h0, h1] using this

theorem registry_t.holds_fixtures (r : registry_t) (fixtures : List fixture_t)
    (h : r.holds fixtures) : r.objects.map node_t.fixture = fixtures := by
  apply List.ext_getElem?
  intro i
  rw [List.getElem?_map, h.1 i]
  cases fixtures[i]? <;> rfl

theorem fixture_t.for_each_collect (fixtures visited : List fixture_t) :
    fixture_t.for_each fixtures (fun visited fixture => (visited ++ [fixture], true)) visited =
      (visited ++ fixtures, true) := by
  induction fixtures generalizing visited with
  | nil => simp [fixture_t.for_each]
  | cons fixture next ih =>
    simp only [fixture_t.for_each, Bool.not_true, Bool.false_eq_true, if_false]
    rw [ih]
    simp

/-- The outcome of `not_almost_eq_t` is the negation of the outcome of `almost_eq_t` on the
same operands. -/
theorem predicate.not_almost_eq_t_outcome {lhs_t rhs_t coef_t : Type} [shl_t lhs_t]
    [shl_t rhs_t] [shl_t coef_t] (almost_eq : lhs_t → rhs_t → coef_t → Bool)
    (lhs : operand_t lhs_t) (rhs : operand_t rhs_t) (coef : operand_t coef_t) :
    (predicate.not_almost_eq_t almost_eq lhs rhs coef).to_bool =
      !(predicate.almost_eq_t almost_eq lhs rhs coef).to_bool := rfl

/-! ## Every fault: what the process does -/

theorem full_base_of_exception (ex : exception) : (full.exception.of ex).base = ex := by
  induction ex with
  | leaf what => rfl
  | nest what nested_ex ih => simp [full.exception.of, full.exception.base, ih]
  | nest_other what => rfl

theorem full_terminates_of_exception (ex : exception) :
    (full.exception.of ex).terminates = false := by
  induction ex with
  | leaf what => rfl
  | nest what nested_ex ih => simpa [full.exception.of, full.exception.terminates] using ih
  | nest_other what => rfl

theorem full_base_of_thrown (t : thrown_t) : (full.thrown_t.of t).base = t := by
  cases t with
  | std ex => simp [full.thrown_t.of, full.thrown_t.base, full_base_of_exception]
  | other => rfl

theorem full_base_of_fixture (fixture : fixture_t) : (full.fixture_t.of fixture).base = fixture := by
  obtain ⟨loc, name, body, thrown⟩ := fixture
  cases thrown with
  | none => rfl
  | some t => simp [full.fixture_t.of, full.fixture_t.base, full_base_of_thrown]

/-- Function `write_ex` on every exception: no text when the innermost exception holds no
cause, and otherwise the text it gives on the exception without that case. -/
theorem full_write_ex_spec (strm : String) (ex : full.exception) (is_nested : Bool) :
    full.write_ex strm ex is_nested =
      if ex.terminates then none else some (write_ex strm ex.base is_nested) := by
  induction ex generalizing strm is_nested with
  | leaf what => rfl
  | nest what nested_ex ih =>
    simp only [full.write_ex, full.exception.terminates, full.exception.base, write_ex, ih]
  | nest_other what => rfl
  | nest_null what => rfl

theorem full_stall_spec {ret_t : Type} (r : Except full.thrown_t ret_t) :
    full.stall r =
      match r with
      | .ok ret => some (stall (.ok ret))
      | .error t => if t.terminates then none else some (stall (.error t.base)) := by
  cases r with
  | ok ret => rfl
  | error t =>
    cases t with
    | other => rfl
    | std ex =>
      simp only [full.stall, full.get_ex_msg, full_write_ex_spec, full.thrown_t.terminates,
        full.thrown_t.base]
      cases ex.terminates <;> simp [stall, get_ex_msg]

/-- The call operator on every fault: the process ends after the statements of the body
when the procedure throws an exception on which `std::terminate` is called, and otherwise
the call returns what it returns on the fixture without that case. -/
theorem full_call_spec (this : full.fixture_t) (cfg : cfg_t) (w : world_t) :
    this.call cfg w =
      if this.fn.thrown.any full.thrown_t.terminates then
        .terminated
          { w with
            strm := w.strm ++
              (if decide (cfg.verbosity ≥ 2) || this.fn.body.any (stmt_t.prints cfg) then
                begin_banner this.base else "") ++
              String.join (this.fn.body.map (stmt_t.text cfg)),
            trace := w.trace ++ [event_t.enter this.base] ++
              this.base.fn.expectations.map event_t.completed }
      else .returned (this.base.call cfg w) := by
  unfold full.fixture_t.call lick.fixture_t.call full.fn_t.call lick.fn_t.call
  simp only [full_stall_spec]
  cases ht : this.fn.thrown with
  | none => simp [full.fixture_t.base, ht, stall, stalled_t.to_bool]
  | some t =>
    cases hterm : t.terminates
    · cases t <;> simp [full.fixture_t.base, ht, hterm, stall, stalled_t.to_bool, full.thrown_t.base]
    · simp only [ctxt_t.ctor, ctxt_t.on_begin_show_eq, stmt_t.foldl_exec_eq, fn_t.expectations]
      by_cases hv : cfg.verbosity ≥ 2
      · simp [full.fixture_t.base, ht, hterm, hv, String.append_assoc]
      · cases hp : this.fn.body.any (stmt_t.prints cfg) <;>
          simp [full.fixture_t.base, ht, hterm, hv, hp, String.append_assoc]

theorem full_call_of (fixture : fixture_t) (cfg : cfg_t) (w : world_t) :
    (full.fixture_t.of fixture).call cfg w = .returned (fixture.call cfg w) := by
  have h : (full.fixture_t.of fixture).fn.thrown.any full.thrown_t.terminates = false := by
    cases ht : fixture.fn.thrown with
    | none => simp [full.fixture_t.of, ht]
    | some t =>
      cases t <;>
        simp [full.fixture_t.of, ht, full.thrown_t.of, full.thrown_t.terminates,
          full_terminates_of_exception]
  rw [full_call_spec, h, full_base_of_fixture]
  rfl

theorem full_cb_of (cfg : cfg_t) (s : counts_t × world_t) (fixture : fixture_t) :
    full.run_fixtures.cb cfg s (full.fixture_t.of fixture) =
      .returned (run_fixtures.cb cfg s fixture) := by
  unfold full.run_fixtures.cb run_fixtures.cb
  rw [full_call_of]
  have hn : (full.fixture_t.of fixture).name = fixture.name := rfl
  rw [hn]
  by_cases hm : cfg.regex fixture.name = true
  · cases hr : (fixture.call cfg s.2).1 <;> simp [hm, hr]
  · simp [hm]

theorem full_for_each_of (before : List fixture_t) (rest : List full.fixture_t) (cfg : cfg_t)
    (s : counts_t × world_t) :
    full.fixture_t.for_each (before.map full.fixture_t.of ++ rest) (full.run_fixtures.cb cfg) s =
      full.fixture_t.for_each rest (full.run_fixtures.cb cfg)
        (fixture_t.for_each before (run_fixtures.cb cfg) s).1 := by
  induction before generalizing s with
  | nil => rfl
  | cons fixture next ih =>
    have h1 : (run_fixtures.cb cfg s fixture).2 = true := by rw [run_fixtures.cb_eq]
    have h2 : fixture_t.for_each (fixture :: next) (run_fixtures.cb cfg) s =
        fixture_t.for_each next (run_fixtures.cb cfg) (run_fixtures.cb cfg s fixture).1 := by
      rw [fixture_t.for_each]
      simp [h1]
    have h3 : full.fixture_t.for_each
        (full.fixture_t.of fixture :: (next.map full.fixture_t.of ++ rest))
        (full.run_fixtures.cb cfg) s =
        full.fixture_t.for_each (next.map full.fixture_t.of ++ rest) (full.run_fixtures.cb cfg)
          (run_fixtures.cb cfg s fixture).1 := by
      rw [full.fixture_t.for_each, full_cb_of]
      simp [h1]
    rw [List.map_cons, List.cons_append, h3, ih, h2]

/-- The loop of the run driver at a matching fixture whose procedure throws an exception
on which `std::terminate` is called, after fixtures that do not: the process ends in the
invocation of that fixture, in the state its statements leave. -/
theorem full_loop_terminated (before : List fixture_t) (fixture : full.fixture_t)
    (after : List full.fixture_t) (cfg : cfg_t) (w : world_t)
    (hm : cfg.regex fixture.name = true)
    (ht : fixture.fn.thrown.any full.thrown_t.terminates = true) :
    full.run_fixtures.loop (before.map full.fixture_t.of ++ fixture :: after) cfg w =
      .terminated
        { (run_fixtures.loop before cfg w).2 with
          strm := (run_fixtures.loop before cfg w).2.strm ++
            (if decide (cfg.verbosity ≥ 2) || fixture.fn.body.any (stmt_t.prints cfg) then
              begin_banner fixture.base else "") ++
            String.join (fixture.fn.body.map (stmt_t.text cfg)),
          trace := (run_fixtures.loop before cfg w).2.trace ++ [event_t.enter fixture.base] ++
            fixture.base.fn.expectations.map event_t.completed } := by
  unfold full.run_fixtures.loop
  rw [full_for_each_of]
  simp only [full.fixture_t.for_each, full.run_fixtures.cb, hm, if_true, full_call_spec, ht]
  rfl

theorem full_messages_base (ex : full.exception) : ex.base.messages = ex.messages := by
  induction ex with
  | leaf what => rfl
  | nest what nested_ex ih => simp [full.exception.base, exception.messages, full.exception.messages, ih]
  | nest_other what => rfl
  | nest_null what => rfl

theorem full_run_terminated (registry : List full.fixture_t) (cfg : cfg_t) (w w2 : world_t)
    (h : full.run_fixtures.loop registry cfg w = .terminated w2) :
    full.run_fixtures registry cfg w = .terminated w2 := by
  unfold full.run_fixtures
  rw [h]

/-- On the faults of `thrown_t`: when the procedure of a fixture throws, the invocation
returns false whatever its
expectations did, and what it writes is the output of its statements, then the indented
`exception` line with the flattened message, then the end banner if the begin banner was
shown; when the procedure returns, the invocation returns true exactly when every
expectation it evaluated passed. -/
theorem fixture_t.call_result (fixture : fixture_t) (cfg : cfg_t) (w : world_t) :
    (∀ t : thrown_t, fixture.fn.thrown = some t →
      (fixture.call cfg w).1 = false ∧
      (fixture.call cfg w).2.strm =
        w.strm ++
        (if decide (cfg.verbosity ≥ 2) || fixture.fn.body.any (stmt_t.prints cfg) then
          begin_banner fixture else "") ++
        String.join (fixture.fn.body.map (stmt_t.text cfg)) ++
        ("  " ++ red ++ "exception" ++ plain ++ separator ++ t.msg ++ "\n") ++
        (if decide (cfg.verbosity ≥ 2) || fixture.fn.body.any (stmt_t.prints cfg) then
          end_banner fixture (fixture.fn.expectations.all (fun e => e.ok)) else "")) ∧
    (fixture.fn.thrown = none →
      ((fixture.call cfg w).1 = true ↔ ∀ e ∈ fixture.fn.expectations, e.ok = true)) := by
  constructor
  · intro t ht
    rw [fixture_t.call_eq]
    simp [ht, exception_line, indent_one, endl, String.append_assoc]
  · intro ht
    rw [fixture_t.call_eq]
    simp [ht]

/-- On the faults of `thrown_t`: when a matching fixture throws after its statements, the
round of the loop for it
runs the destructor of each of its expectations, writes what they write and then the
`exception` line, adds one to `fail_cnt` and leaves the other counters, and the loop goes
on to enter every matching fixture registered after it. -/
theorem run_fixtures.loop_after_fault (before after : List fixture_t) (fixture : fixture_t)
    (t : thrown_t) (cfg : cfg_t) (w : world_t)
    (hm : cfg.regex fixture.name = true) (ht : fixture.fn.thrown = some t) :
    completions (since (run_fixtures.loop before cfg w).2
        (run_fixtures.loop (before ++ [fixture]) cfg w).2) = fixture.fn.expectations ∧
    (run_fixtures.loop (before ++ [fixture]) cfg w).2.strm =
      (run_fixtures.loop before cfg w).2.strm ++
      (if decide (cfg.verbosity ≥ 2) || fixture.fn.body.any (stmt_t.prints cfg) then
        begin_banner fixture else "") ++
      String.join (fixture.fn.body.map (stmt_t.text cfg)) ++
      ("  " ++ red ++ "exception" ++ plain ++ separator ++ t.msg ++ "\n") ++
      (if decide (cfg.verbosity ≥ 2) || fixture.fn.body.any (stmt_t.prints cfg) then
        end_banner fixture (fixture.fn.expectations.all (fun e => e.ok)) else "") ∧
    (run_fixtures.loop (before ++ [fixture]) cfg w).1 =
      { (run_fixtures.loop before cfg w).1 with
        fail_cnt := (run_fixtures.loop before cfg w).1.fail_cnt + 1 } ∧
    entered (since (run_fixtures.loop (before ++ [fixture]) cfg w).2
        (run_fixtures.loop (before ++ fixture :: after) cfg w).2) =
      after.filter (fun f => cfg.regex f.name) := by
  have hret : ∀ w0, (fixture.call cfg w0).1 = false := by
    intro w0
    rw [fixture_t.call_eq]
    simp [ht]
  have hstep : run_fixtures.loop (before ++ [fixture]) cfg w =
      ({ (run_fixtures.loop before cfg w).1 with
          fail_cnt := (run_fixtures.loop before cfg w).1.fail_cnt + 1 },
        (fixture.call cfg (run_fixtures.loop before cfg w).2).2) := by
    rw [run_fixtures.run_loop_append]
    simp [fixture_t.for_each, run_fixtures.cb_eq, hm, hret]
  have hafter : run_fixtures.loop (before ++ fixture :: after) cfg w =
      (fixture_t.for_each after (run_fixtures.cb cfg)
        (run_fixtures.loop (before ++ [fixture]) cfg w)).1 := by
    rw [← run_fixtures.run_loop_append]
    simp
  obtain ⟨tr, h1, _, _, h4⟩ := fixture_t.call_trace fixture cfg (run_fixtures.loop before cfg w).2
  obtain ⟨tr2, g1, g2, _⟩ := run_fixtures.for_each_spec after cfg
    (run_fixtures.loop (before ++ [fixture]) cfg w).1
    (run_fixtures.loop (before ++ [fixture]) cfg w).2
  refine ⟨?_, ?_, ?_, ?_⟩
  · rw [hstep, since_append _ _ tr h1]; exact h4
  · rw [hstep, fixture_t.call_eq]
    simp [ht, exception_line, indent_one, endl, String.append_assoc]
  · rw [hstep]
  · rw [hafter, since_append _ _ tr2 g1]; exact g2

/-- On the exceptions of `exception`: the message the boundary keeps for a `std::exception`
is its own message and the
messages of its nested causes, outermost first, joined by `; ` with no separator before or
after; a nested cause of another type gives the sentinel `non-standard exception` and ends
the chain; a thrown object of another type gives the sentinel alone. -/
theorem get_ex_msg_flattened :
    (∀ ex : exception, get_ex_msg ex = String.intercalate "; " ex.messages) ∧
    (∀ ex : exception, (stall (Except.error (.std ex) : Except thrown_t Unit)).msg =
      String.intercalate "; " ex.messages) ∧
    (∀ m0 : String, (exception.leaf m0).messages = [m0]) ∧
    (∀ (m0 : String) (ex : exception), (exception.nest m0 ex).messages = m0 :: ex.messages) ∧
    (∀ m0 : String, (exception.nest_other m0).messages = [m0, "non-standard exception"]) ∧
    (stall (Except.error .other : Except thrown_t Unit)).msg = "non-standard exception" := by
  have h : ∀ ex : exception, get_ex_msg ex = String.intercalate "; " ex.messages := by
    intro ex
    rw [get_ex_msg, write_ex_eq]
    simp [separator]
  exact ⟨h, fun ex => h ex, fun _ => rfl, fun _ _ => rfl, fun _ => rfl, rfl⟩

/-! ## The claims -/

/-- C2: `run_fixtures` returns true exactly when, in strict mode, at least one invoked
fixture returned true and none returned false, and in normal mode, no invoked fixture
returned false; these numbers are the values of `pass_cnt` and `fail_cnt`. -/
theorem C2_overall_success (registry : List fixture_t) (cfg : cfg_t) (w : world_t) :
    ((run_fixtures registry cfg w).1 = true ↔
      if cfg.strict = true then
        0 < (returns (since w (run_fixtures registry cfg w).2)).countP (fun r => r.2) ∧
        (returns (since w (run_fixtures registry cfg w).2)).countP (fun r => !r.2) = 0
      else
        (returns (since w (run_fixtures registry cfg w).2)).countP (fun r => !r.2) = 0) ∧
    (run_fixtures.loop registry cfg w).1.pass_cnt =
      (returns (since w (run_fixtures registry cfg w).2)).countP (fun r => r.2) ∧
    (run_fixtures.loop registry cfg w).1.fail_cnt =
      (returns (since w (run_fixtures registry cfg w).2)).countP (fun r => !r.2) := by
  obtain ⟨tr, h1, _, _, h4, h5, _⟩ := run_fixtures.loop_spec registry cfg w
  rw [since_append w _ tr (by rw [run_fixtures.trace_eq]; exact h1), run_fixtures.fst_eq,
    h4, h5]
  refine ⟨?_, rfl, rfl⟩
  cases cfg.strict <;> simp [Nat.pos_iff_ne_zero]

/-- C3: with the registry holding only `arith` and no command-line flag, parsing succeeds
and `run_fixtures` returns false, and `lick::main` returns `EXIT_SUCCESS`: the exit code
tests whether `stalled.ret` holds a value, not the value it holds. -/
theorem C3_main_exits_zero_after_a_failed_run :
    (∃ cfg, cfg_t.parse example_lib (match_all 1 false) [] = .ok (cfg, true)) ∧
    cfg_t.ctor example_lib = .ok (match_all 1 false) ∧
    (run_fixtures [arith] (match_all 1 false) blank).1 = false ∧
    (main [arith] example_lib [] blank).1 = EXIT_SUCCESS :=
  ⟨⟨_, rfl⟩, rfl, by decide, by decide⟩

/-- C4: when the procedure of a fixture throws an exception on which `std::terminate` is
called, the invocation does not return: the process ends after the statements of the body,
with no `exception` line written; on every other fault, and when the procedure returns,
the invocation returns.  So it is for the fixture `aborter` at verbosity 1, where the last
text on the stream is the line of its failing expectation. -/
theorem C4_invocation_ends_the_process :
    (∀ (fixture : full.fixture_t) (cfg : cfg_t) (w : world_t),
      fixture.fn.thrown.any full.thrown_t.terminates = false →
      fixture.call cfg w = .returned (fixture.base.call cfg w)) ∧
    (∀ (fixture : full.fixture_t) (cfg : cfg_t) (w : world_t),
      fixture.fn.thrown.any full.thrown_t.terminates = true →
      fixture.call cfg w =
        .terminated
          { w with
            strm := w.strm ++
              (if decide (cfg.verbosity ≥ 2) || fixture.fn.body.any (stmt_t.prints cfg) then
                begin_banner fixture.base else "") ++
              String.join (fixture.fn.body.map (stmt_t.text cfg)),
            trace := w.trace ++ [event_t.enter fixture.base] ++
              fixture.base.fn.expectations.map event_t.completed }) ∧
    full.aborter.fn.thrown = some (.std (.nest_null "boom")) ∧
    (∃ w2 : world_t, full.aborter.call (match_all 1 false) blank = .terminated w2 ∧
      w2.strm =
        "aborter.cc:30; begin \x1b[1maborter\x1b[0m\n" ++
        "  aborter.cc:32; \x1b[1;31mfail\x1b[0m; EXPECT_LT(used, limit); used=7; limit=5\n" ∧
      returns w2.trace = []) := by
  refine ⟨fun fixture cfg w h => ?_, fun fixture cfg w h => ?_, rfl, _, rfl, ?_, ?_⟩
  · rw [full_call_spec, h]; rfl
  · rw [full_call_spec, h]; rfl
  · decide
  · decide

/-- C5: when a matching fixture throws an exception on which `std::terminate` is called,
the run does not go on: the process ends in the invocation of that fixture, which is
entered and never returns, so no counter is changed for it, no summary is written, and no
fixture registered after it is entered.  So it is for the registry `sound`, `aborter`,
`arith`, where `arith` matches and is never entered. -/
theorem C5_run_ends_at_the_fault :
    (∀ (before : List fixture_t) (fixture : full.fixture_t) (after : List full.fixture_t)
      (cfg : cfg_t) (w : world_t),
      cfg.regex fixture.name = true →
      fixture.fn.thrown.any full.thrown_t.terminates = true →
      ∃ w2 : world_t,
        full.run_fixtures (before.map full.fixture_t.of ++ fixture :: after) cfg w =
          .terminated w2 ∧
        full.run_fixtures.loop (before.map full.fixture_t.of ++ fixture :: after) cfg w =
          .terminated w2 ∧
        entered (since w w2) = before.filter (fun f => cfg.regex f.name) ++ [fixture.base] ∧
        (returns (since w w2)).map Prod.fst = before.filter (fun f => cfg.regex f.name)) ∧
    (match_all 1 false).regex full.aborter.name = true ∧
    (match_all 1 false).regex arith.name = true ∧
    (∃ w2 : world_t,
      full.run_fixtures [full.fixture_t.of sound, full.aborter, full.fixture_t.of arith]
        (match_all 1 false) blank = .terminated w2 ∧
      w2.strm =
        "aborter.cc:30; begin \x1b[1maborter\x1b[0m\n" ++
        "  aborter.cc:32; \x1b[1;31mfail\x1b[0m; EXPECT_LT(used, limit); used=7; limit=5\n" ∧
      entered w2.trace = [sound, full.aborter.base] ∧
      returns w2.trace = [(sound, true)]) := by
  refine ⟨fun before fixture after cfg w hm ht => ?_, rfl, rfl, _, rfl, ?_, ?_, ?_⟩
  · have hl := full_loop_terminated before fixture after cfg w hm ht
    obtain ⟨tr, h1, h2, h3, _⟩ := run_fixtures.loop_spec before cfg w
    refine ⟨_, full_run_terminated _ _ _ _ hl, hl, ?_, ?_⟩
    · rw [since_append w _ (tr ++ [event_t.enter fixture.base] ++
        fixture.base.fn.expectations.map event_t.completed) (by simp [h1])]
      rw [entered_append, entered_append, entered_completed, h2]
      simp [entered]
    · rw [since_append w _ (tr ++ [event_t.enter fixture.base] ++
        fixture.base.fn.expectations.map event_t.completed) (by simp [h1])]
      rw [returns_append, returns_append, returns_completed, List.append_nil, List.map_append,
        h3]
      simp [returns]
  · decide
  · decide
  · decide

/-- C6: when the body of a fixture is a sequence of expectations and returns, the
destructor of every one of them runs, in order, and the invocation writes, between the
banners, the line of each expectation that failed (and of each one at all when the verbosity
is at least 2), whatever failed before it; each such line is not empty. -/
theorem C6_every_expectation_completes (fixture : fixture_t) (cfg : cfg_t) (w : world_t)
    (hbody : ∀ stmt ∈ fixture.fn.body, stmt.expectation ≠ none)
    (hret : fixture.fn.thrown = none) :
    completions (since w (fixture.call cfg w).2) = fixture.fn.expectations ∧
    fixture.fn.expectations.length = fixture.fn.body.length ∧
    (fixture.call cfg w).2.strm =
      w.strm ++
      (if decide (cfg.verbosity ≥ 2) || fixture.fn.expectations.any (fun e => !e.ok) then
        begin_banner fixture else "") ++
      String.join (fixture.fn.expectations.map
        (fun e => if e.ok = false ∨ cfg.verbosity ≥ 2 then e.line else "")) ++
      (if decide (cfg.verbosity ≥ 2) || fixture.fn.expectations.any (fun e => !e.ok) then
        end_banner fixture (fixture.fn.expectations.all (fun e => e.ok)) else "") ∧
    ∀ e ∈ fixture.fn.expectations, e.line ≠ "" := by
  obtain ⟨tr, h1, _, _, h4⟩ := fixture_t.call_trace fixture cfg w
  obtain ⟨b1, b2, b3⟩ := stmt_t.body_of_expectations cfg fixture.fn.body hbody
  refine ⟨?_, b3, ?_, fun e _ => e.line_ne_empty⟩
  · rw [since_append w _ tr h1]; exact h4
  · rw [fixture_t.call_eq]
    simp only [hret, b1, b2, fn_t.expectations]
    have hshown : (decide (cfg.verbosity ≥ 2) ||
        (fixture.fn.body.filterMap stmt_t.expectation).any
          (fun e => !e.ok || decide (cfg.verbosity ≥ 2))) =
        (decide (cfg.verbosity ≥ 2) ||
          (fixture.fn.body.filterMap stmt_t.expectation).any (fun e => !e.ok)) := by
      by_cases hv : cfg.verbosity ≥ 2 <;> simp [hv]
    rw [hshown]
    have hmap : (fixture.fn.body.filterMap stmt_t.expectation).map
        (fun e => if (!e.ok || decide (cfg.verbosity ≥ 2)) = true then e.line else "") =
        (fixture.fn.body.filterMap stmt_t.expectation).map
        (fun e => if e.ok = false ∨ cfg.verbosity ≥ 2 then e.line else "") := by
      apply List.map_congr_left
      intro e _
      by_cases hv : cfg.verbosity ≥ 2 <;> cases e.ok <;> simp [hv]
    rw [hmap]
    simp

/-- C6 at the fixture `arith`, whose first expectation passes and whose second fails. -/
theorem C6_every_expectation_completes_witness :
    (∀ stmt ∈ arith.fn.body, stmt.expectation ≠ none) ∧ arith.fn.thrown = none ∧
    completions (since blank (arith.call (match_all 1 false) blank).2) =
      arith.fn.expectations :=
  ⟨by decide, rfl,
   (C6_every_expectation_completes arith (match_all 1 false) blank (by decide) rfl).1⟩

/-- C7: the destructor of an expectation changes the stream exactly when the outcome is
false or the verbosity is at least 2; it then appends the begin banner, if that was not yet
shown, and the line of the expectation; a passing expectation at a verbosity below 2
leaves the stream as it was. -/
theorem C7_expectation_prints_iff (e : expectation_t) (ctxt : ctxt_t) (w : world_t) :
    ((e.dtor ctxt w).2.strm ≠ w.strm ↔ (e.ok = false ∨ ctxt.cfg.verbosity ≥ 2)) ∧
    ((e.ok = false ∨ ctxt.cfg.verbosity ≥ 2) →
      (e.dtor ctxt w).2.strm =
        w.strm ++ (if ctxt.showing then "" else begin_banner ctxt.fixture) ++ e.line) ∧
    (e.ok = true → ctxt.cfg.verbosity < 2 → (e.dtor ctxt w).2.strm = w.strm) := by
  rw [expectation_t.dtor_eq]
  by_cases hp : e.ok = false ∨ ctxt.cfg.verbosity ≥ 2
  · have hc : (!e.ok || decide (ctxt.cfg.verbosity ≥ 2)) = true := by
      rcases hp with h | h <;> simp [h]
    simp only [hc, if_true]
    refine ⟨⟨fun _ => hp, fun _ => ?_⟩, fun _ => (String.append_assoc _ _ _).symm, ?_⟩
    · apply append_ne_self
      intro h
      have := congrArg String.length h
      have hl := e.line_ne_empty
      simp only [String.length_append] at this
      apply hl
      apply String.ext
      apply List.length_eq_zero.mp
      have : e.line.length = 0 := by
        change _ + e.line.length = 0 at this
        omega
      exact this
    · intro h1 h2
      rcases hp with h | h
      · simp [h1] at h
      · omega
  · have hc : (!e.ok || decide (ctxt.cfg.verbosity ≥ 2)) = false := by
      simp only [not_or] at hp
      cases h : e.ok
      · exact absurd h hp.1
      · simp [hp.2]
    simp [hc, hp]

/-- C7 at a failing expectation, with the banner already shown, at verbosity 1. -/
theorem C7_expectation_prints_iff_witness :
    (expectation_t.ctor { file := "a.cc", line := 7 }
      (predicate.eq_t (as_operand "1+1" (1 + 1 : Int)) (as_operand "3" (3 : Int)))).ok = false ∧
    ((expectation_t.ctor { file := "a.cc", line := 7 }
      (predicate.eq_t (as_operand "1+1" (1 + 1 : Int)) (as_operand "3" (3 : Int)))).dtor
        { fixture := arith, cfg := match_all 1 false, showing := true, ok := true }
        blank).2.strm =
      "  a.cc:7; \x1b[1;31mfail\x1b[0m; EXPECT_EQ(1+1, 3)\n" :=
  ⟨by decide,
   ((C7_expectation_prints_iff _
      { fixture := arith, cfg := match_all 1 false, showing := true, ok := true } blank).2.1
      (Or.inl (by decide))).trans (by decide)⟩

/-- C8: after the loop of `run_fixtures` over a registry, `skip_cnt` is the number of
fixtures whose name does not match, the invocations that returned are those of the matching
fixtures in order, `pass_cnt` counts those that returned true and `fail_cnt` those that
returned false, and the three counters add up to the length of the registry. -/
theorem C8_counters_partition_the_registry (registry : List fixture_t) (cfg : cfg_t)
    (w : world_t) :
    (run_fixtures.loop registry cfg w).1.skip_cnt =
      registry.countP (fun fixture => !cfg.regex fixture.name) ∧
    (returns (since w (run_fixtures registry cfg w).2)).map Prod.fst =
      registry.filter (fun fixture => cfg.regex fixture.name) ∧
    (run_fixtures.loop registry cfg w).1.pass_cnt =
      (returns (since w (run_fixtures registry cfg w).2)).countP (fun r => r.2) ∧
    (run_fixtures.loop registry cfg w).1.fail_cnt =
      (returns (since w (run_fixtures registry cfg w).2)).countP (fun r => !r.2) ∧
    (run_fixtures.loop registry cfg w).1.pass_cnt + (run_fixtures.loop registry cfg w).1.fail_cnt +
      (run_fixtures.loop registry cfg w).1.skip_cnt = registry.length := by
  obtain ⟨tr, h1, _, h3, h4, h5, h6⟩ := run_fixtures.loop_spec registry cfg w
  rw [since_append w _ tr (by rw [run_fixtures.trace_eq]; exact h1)]
  refine ⟨h6, h3, h4, h5, ?_⟩
  rw [h4, h5, h6]
  have hlen : (returns tr).length = (registry.filter (fun f => cfg.regex f.name)).length := by
    rw [← h3, List.length_map]
  have hpart : (returns tr).countP (fun r => r.2) + (returns tr).countP (fun r => !r.2) =
      (returns tr).length := by
    have := List.length_eq_countP_add_countP (fun r : fixture_t × Bool => r.2) (returns tr)
    simpa using this.symm
  have hreg : (registry.filter (fun f => cfg.regex f.name)).length +
      registry.countP (fun f => !cfg.regex f.name) = registry.length := by
    have := List.length_eq_countP_add_countP (fun f : fixture_t => cfg.regex f.name) registry
    rw [List.countP_eq_length_filter] at this
    simpa using this.symm
  omega

/-- C10, as the code has it: with the registry holding only the fixture of the example, at
verbosity 1 and with every name matching, the run fails and writes the begin banner, the
line of the second expectation and no line for the first, the end banner, and the summary
`passed 0; failed 1; skipped 0; ` followed by the red status word `fail`. -/
theorem C10_example_output (loc loc1 loc2 : loc_t) (name : String) (strict : Bool)
    (w : world_t) :
    (run_fixtures [two_eq_fixture loc name loc1 loc2] (match_all 1 strict) w).1 = false ∧
    (run_fixtures [two_eq_fixture loc name loc1 loc2] (match_all 1 strict) w).2.strm =
      w.strm ++
      (loc.file ++ ":" ++ toString loc.line ++ "; begin " ++ bold ++ name ++ plain ++ "\n") ++
      ("  " ++ loc2.file ++ ":" ++ toString loc2.line ++ "; " ++ red ++ "fail" ++ plain ++
        "; EXPECT_EQ(1+1, 3)\n") ++
      ("end " ++ bold ++ name ++ plain ++ "; " ++ red ++ "fail" ++ plain ++ "\n") ++
      ("passed 0; failed 1; skipped 0; " ++ red ++ "fail" ++ plain ++ "\n") := by
  have h1 : (expectation_t.ctor loc1
      (predicate.eq_t (as_operand "2+2" (4 : Int)) (as_operand "4" (4 : Int)))).ok = true := rfl
  have h2 : (expectation_t.ctor loc2
      (predicate.eq_t (as_operand "1+1" (2 : Int)) (as_operand "3" (3 : Int)))).ok = false := rfl
  have hp1 : (predicate.eq_t (as_operand "2+2" (4 : Int)) (as_operand "4" (4 : Int))).to_bool
      = true := rfl
  have hp2 : (predicate.eq_t (as_operand "1+1" (2 : Int)) (as_operand "3" (3 : Int))).to_bool
      = false := rfl
  have hline : (expectation_t.ctor loc2
      (predicate.eq_t (as_operand "1+1" (2 : Int)) (as_operand "3" (3 : Int)))).line =
      "  " ++ loc2.file ++ ":" ++ toString loc2.line ++ "; " ++ red ++ "fail" ++ plain ++
        "; EXPECT_EQ(1+1, 3)\n" := by
    have hd1 : (deref "1+1").isDigit = true := by decide
    have hd3 : (deref "3").isDigit = true := by decide
    have hdn : deref "EQ" ≠ Char.ofNat 0 := by decide
    simp [expectation_t.line, expectation_t.ctor, predicate.eq_t, as_operand, operand_t.base,
      predicate_t.to_bool, eq, pf_t.write, loc_t.write, indent_one, separator, endl, fail,
      predicate_t.write_src, predicate_t.for_each_operand, predicate_t.get_name,
      any_operand_t.write_src, expectation_t.dtor.cb, String.append_assoc, hd1, hd3, hdn]
  have hcall1 : ((two_eq_fixture loc name loc1 loc2).call (match_all 1 strict) w).1 = false := by
    rw [fixture_t.call_eq]
    simp [two_eq_fixture, fn_t.expectations, stmt_t.expectation, h1, h2]
  have hcall2 : ((two_eq_fixture loc name loc1 loc2).call (match_all 1 strict) w).2.strm =
      w.strm ++
      (loc.file ++ ":" ++ toString loc.line ++ "; begin " ++ bold ++ name ++ plain ++ "\n") ++
      ("  " ++ loc2.file ++ ":" ++ toString loc2.line ++ "; " ++ red ++ "fail" ++ plain ++
        "; EXPECT_EQ(1+1, 3)\n") ++
      ("end " ++ bold ++ name ++ plain ++ "; " ++ red ++ "fail" ++ plain ++ "\n") := by
    rw [fixture_t.call_eq]
    simp [two_eq_fixture, fn_t.expectations, stmt_t.expectation, h1, h2, hp1, hp2, stmt_t.prints,
      stmt_t.text, match_all, join_cons, String.join, hline, begin_banner, end_banner,
      loc_t.write, pf_t.write, separator, endl, fail, String.append_assoc]
  have hloop : run_fixtures.loop [two_eq_fixture loc name loc1 loc2] (match_all 1 strict) w =
      ({ pass_cnt := 0, fail_cnt := 1, skip_cnt := 0 },
        ((two_eq_fixture loc name loc1 loc2).call (match_all 1 strict) w).2) := by
    simp [run_fixtures.loop, fixture_t.for_each, run_fixtures.cb_eq, hcall1]
    simp [match_all]
  have hfst : (run_fixtures [two_eq_fixture loc name loc1 loc2] (match_all 1 strict) w).1 =
      false := by
    rw [run_fixtures.fst_eq, hloop]
    cases strict <;> rfl
  refine ⟨hfst, ?_⟩
  rw [run_fixtures.strm_eq, hfst, hloop, hcall2]
  have hsum : summary_line { pass_cnt := 0, fail_cnt := 1, skip_cnt := 0 } false =
      "passed 0; failed 1; skipped 0; " ++ red ++ "fail" ++ plain ++ "\n" := by decide
  simp only [hsum, Bool.not_false, Bool.true_or, if_true]

set_option maxRecDepth 100000 in
/-- C10 as stated fails: for the fixture `arith`, run at verbosity 1 with every name
matching, the whole output is the text below, and the line
`passed 0; failed 1; skipped 0; FAIL` occurs nowhere in it. -/
theorem C10_summary_is_not_upper_case :
    (run_fixtures [arith] (match_all 1 false) blank).2.strm =
      "arith.cc:10; begin \x1b[1marith\x1b[0m\n" ++
      "  arith.cc:12; \x1b[1;31mfail\x1b[0m; EXPECT_EQ(1+1, 3)\n" ++
      "end \x1b[1marith\x1b[0m; \x1b[1;31mfail\x1b[0m\n" ++
      "passed 0; failed 1; skipped 0; \x1b[1;31mfail\x1b[0m\n" ∧
    ¬ ("passed 0; failed 1; skipped 0; FAIL".data <:+:
        (run_fixtures [arith] (match_all 1 false) blank).2.strm.data) := by
  constructor
  · decide
  · decide

/-- C11: when no fixture of the registry has a name that matches the pattern, `run_fixtures`
returns false in strict mode and true in normal mode, and no procedure is entered and no
invocation returns. -/
theorem C11_no_matching_fixture (registry : List fixture_t) (cfg : cfg_t) (w : world_t)
    (h : ∀ fixture ∈ registry, cfg.regex fixture.name = false) :
    (run_fixtures registry cfg w).1 = !cfg.strict ∧
    entered (since w (run_fixtures registry cfg w).2) = [] ∧
    returns (since w (run_fixtures registry cfg w).2) = [] := by
  obtain ⟨tr, h1, h2, h3, h4, h5, _⟩ := run_fixtures.loop_spec registry cfg w
  have hf : registry.filter (fun f => cfg.regex f.name) = [] := by
    rw [List.filter_eq_nil_iff]
    intro f hf
    simp [h f hf]
  rw [hf] at h2 h3
  have hr : returns tr = [] := by simpa using h3
  rw [hr] at h4 h5
  rw [since_append w _ tr (by rw [run_fixtures.trace_eq]; exact h1), run_fixtures.fst_eq,
    h4, h5]
  refine ⟨?_, h2, hr⟩
  cases cfg.strict <;> rfl

/-- C11 at the registry `arith`, `raising` with the pattern of the names that start with
`s`, and at the empty registry, in strict mode. -/
theorem C11_no_matching_fixture_witness :
    (∀ fixture ∈ [arith, raising], (match_s 1 true).regex fixture.name = false) ∧
    (run_fixtures [arith, raising] (match_s 1 true) blank).1 = false ∧
    (run_fixtures [] (match_all 1 true) blank).1 = false :=
  ⟨by decide,
   (C11_no_matching_fixture [arith, raising] (match_s 1 true) blank (by decide)).1,
   (C11_no_matching_fixture [] (match_all 1 true) blank (by simp)).1⟩

/-- C12: with the registry holding `arith` and an unrecognized flag on the command line,
`cfg_t::parse` returns false, no fixture runs and nothing is written, and `lick::main`
returns `EXIT_SUCCESS`. -/
theorem C12_main_exits_zero_after_a_bad_flag :
    cfg_t.ctor example_lib = .ok (match_all 1 false) ∧
    (∃ cfg, cfg_t.parse example_lib (match_all 1 false) [.unrecognized] = .ok (cfg, false)) ∧
    main [arith] example_lib [.unrecognized] blank = (EXIT_SUCCESS, blank) :=
  ⟨rfl, ⟨_, rfl⟩, by decide⟩

/-- C13: the code gives the flattened message only for a fault whose chain does not end in
an exception derived from `std::nested_exception` that holds no cause; for such a fault,
at any depth of the chain, `std::terminate` is called while the message is written, so
`get_ex_msg` and the boundary give no message at all.  So it is for the exception thrown
by `std::throw_with_nested(std::runtime_error("boom"))` outside of a handler. -/
theorem C13_no_message_for_a_fault_without_cause :
    (∀ ex : full.exception, full.get_ex_msg ex =
      if ex.terminates then none else some (String.intercalate "; " ex.messages)) ∧
    (∀ ex : full.exception,
      full.stall (Except.error (.std ex) : Except full.thrown_t Unit) =
        if ex.terminates then none
        else some { ret := none, msg := String.intercalate "; " ex.messages, ok := false }) ∧
    (∀ what : String, (full.exception.nest_null what).terminates = true) ∧
    (∀ (what : String) (ex : full.exception),
      (full.exception.nest what ex).terminates = ex.terminates) ∧
    full.get_ex_msg (.nest_null "boom") = none ∧
    full.get_ex_msg (.nest "load failed" (.nest_null "no such file")) = none ∧
    full.stall (Except.error (.std (.nest_null "boom")) : Except full.thrown_t Unit) = none := by
  have h : ∀ ex : full.exception, full.get_ex_msg ex =
      if ex.terminates then none else some (String.intercalate "; " ex.messages) := by
    intro ex
    rw [full.get_ex_msg, full_write_ex_spec, write_ex_eq, full_messages_base]
    simp [separator]
  refine ⟨h, fun ex => ?_, fun _ => rfl, fun _ _ => rfl, rfl, rfl, rfl⟩
  simp only [full.stall, h]
  cases ex.terminates <;> rfl

/-- C17: every configuration made by the default constructor and changed by
`set_verbosity`, `set_regex` and `parse` has a verbosity from 0 to 2; the constructor sets
it to 1, and `set_verbosity(v)` stores 0 when `v < 0`, 2 when `v > 2` and `v` otherwise. -/
theorem C17_verbosity_in_range :
    (∀ (lib : lib_t) (cfg : cfg_t), cfg_t.reachable lib cfg →
      0 ≤ cfg.verbosity ∧ cfg.verbosity ≤ 2) ∧
    (∀ (lib : lib_t) (cfg : cfg_t), cfg_t.ctor lib = .ok cfg → cfg.verbosity = 1) ∧
    (∀ (cfg : cfg_t) (v : Int),
      (v < 0 → (cfg.set_verbosity v).verbosity = 0) ∧
      (v > 2 → (cfg.set_verbosity v).verbosity = 2) ∧
      (0 ≤ v → v ≤ 2 → (cfg.set_verbosity v).verbosity = v)) := by
  have hctor : ∀ (lib : lib_t) (cfg : cfg_t), cfg_t.ctor lib = .ok cfg → cfg.verbosity = 1 := by
    intro lib cfg h
    simp only [cfg_t.ctor] at h
    cases hr : lib.regex_ctor ".*" with
    | error t => simp [hr] at h
    | ok regex =>
      simp only [hr, Except.ok.injEq] at h
      rw [← h]
  refine ⟨?_, hctor, ?_⟩
  · intro lib cfg h
    induction h with
    | ctor cfg h => rw [hctor lib cfg h]; omega
    | set_verbosity cfg v _ _ =>
      simp only [cfg_t.set_verbosity]
      split_ifs <;> omega
    | set_regex cfg r _ ih => exact ih
    | parse cfg opts cfg2 ok _ hp ih => exact cfg_t.parse_verbosity lib opts cfg cfg2 ok hp ih
  · intro cfg v
    refine ⟨fun h => ?_, fun h => ?_, fun h1 h2 => ?_⟩ <;>
      simp only [cfg_t.set_verbosity] <;> split_ifs <;> omega

/-- C17 at the configuration parsed from `-v 7 -s` when `atoi` gives 7. -/
theorem C17_verbosity_in_range_witness :
    cfg_t.reachable { example_lib with atoi := fun _ => 7 } (match_all 2 true) ∧
    0 ≤ (match_all 2 true).verbosity ∧ (match_all 2 true).verbosity ≤ 2 :=
  ⟨cfg_t.reachable.parse (match_all 1 false) [.v "7", .s] _ true
      (cfg_t.reachable.ctor _ rfl) rfl,
   C17_verbosity_in_range.1 { example_lib with atoi := fun _ => 7 } (match_all 2 true)
      (cfg_t.reachable.parse (match_all 1 false) [.v "7", .s] _ true
        (cfg_t.reachable.ctor _ rfl) rfl)⟩

/-- C15: the line of an expectation is the indent, the location, the status and the call
form, then for each operand in operand order the field `; source=value` when the source
text does not begin with a digit, a single quote or a double quote and nothing when it
does, then the extra text if there is any; this is the text the destructor writes whenever
it prints. -/
theorem C15_operand_fields (e : expectation_t) :
    e.line =
      "  " ++ loc_t.write "" e.loc ++ "; " ++ pf_t.write "" { ok := e.ok } ++ "; " ++
      e.predicate.write_src "" ++
      String.join (e.predicate.operands.map (fun operand =>
        if begins_as_literal operand.src then ""
        else "; " ++ operand.src ++ "=" ++ operand.val)) ++
      (if e.string_builder = "" then "" else "; " ++ e.string_builder) ++ "\n" ∧
    (∀ (ctxt : ctxt_t) (w : world_t), (e.ok = false ∨ ctxt.cfg.verbosity ≥ 2) →
      (e.dtor ctxt w).2.strm =
        w.strm ++ (if ctxt.showing then "" else begin_banner ctxt.fixture) ++ e.line) := by
  constructor
  · simp only [expectation_t.line, indent_one]
    rw [predicate_t.dump_eq, predicate_t.write_src_append, pf_t.pf_write_append,
      loc_t.loc_write_append]
    split_ifs <;> simp_all [separator, endl, String.append_assoc]
  · intro ctxt w h
    rw [expectation_t.dtor_eq]
    have hc : (!e.ok || decide (ctxt.cfg.verbosity ≥ 2)) = true := by
      rcases h with h | h <;> simp [h]
    simp [hc, String.append_assoc]

/-- C15 at the failing expectation `EXPECT_LT(used, 5) << "over budget"` with `used` equal
to 7: the first operand gets its field and the literal `5` gets none. -/
theorem C15_operand_fields_witness :
    ((expectation_t.ctor { file := "a.cc", line := 9 }
      (predicate.lt_t (as_operand "used" (7 : Int)) (as_operand "5" (5 : Int)))).shl
        "over budget").ok = false ∧
    (((expectation_t.ctor { file := "a.cc", line := 9 }
      (predicate.lt_t (as_operand "used" (7 : Int)) (as_operand "5" (5 : Int)))).shl
        "over budget").dtor
        { fixture := arith, cfg := match_all 1 false, showing := true, ok := true }
        blank).2.strm =
      "  a.cc:9; \x1b[1;31mfail\x1b[0m; EXPECT_LT(used, 5); used=7; over budget\n" :=
  ⟨by decide,
   (((C15_operand_fields _).2
      { fixture := arith, cfg := match_all 1 false, showing := true, ok := true } blank
      (Or.inl (by decide)))).trans (by decide)⟩

/-- C16, as the code has it: the call form of a predicate is the word `EXPECT`, then `_`
and the name token unless the token is empty, then the source texts of the operands in
operand order, separated by `, ` and enclosed in parentheses; the tokens are those below,
and for `eq_t` over operands with sources `a` and `b` the call form is `EXPECT_EQ(a, b)`. -/
theorem C16_call_form :
    (∀ (p : predicate_t) (strm : String),
      p.write_src strm =
        strm ++ "EXPECT" ++
          (if deref p.get_name = Char.ofNat 0 then "" else "_" ++ p.get_name) ++
          "(" ++ String.intercalate ", " (p.operands.map (fun operand => operand.src)) ++
          ")") ∧
    (∀ operand : operand_t Int,
      (predicate.true_t operand).get_name = "" ∧ (predicate.false_t operand).get_name = "NOT" ∧
      (predicate.true_t operand).write_src "" = "EXPECT(" ++ operand.src ++ ")") ∧
    (∀ lhs rhs : operand_t Int,
      (predicate.eq_t lhs rhs).get_name = "EQ" ∧ (predicate.ne_t lhs rhs).get_name = "NE" ∧
      (predicate.lt_t lhs rhs).get_name = "LT" ∧ (predicate.le_t lhs rhs).get_name = "LE" ∧
      (predicate.gt_t lhs rhs).get_name = "GT" ∧ (predicate.ge_t lhs rhs).get_name = "GE" ∧
      (predicate.eq_t lhs rhs).write_src "" =
        "EXPECT_EQ(" ++ lhs.src ++ ", " ++ rhs.src ++ ")") ∧
    (∀ (almost_eq : Int → Int → Int → Bool) (lhs rhs coef : operand_t Int),
      (predicate.almost_eq_t almost_eq lhs rhs coef).get_name = "ALMOST_EQ" ∧
      (predicate.not_almost_eq_t almost_eq lhs rhs coef).get_name = "NOT_ALMOST_EQ") := by
  refine ⟨predicate_t.write_src_eq, fun operand => ⟨rfl, rfl, ?_⟩,
    fun lhs rhs => ⟨rfl, rfl, rfl, rfl, rfl, rfl, ?_⟩, fun _ _ _ _ => ⟨rfl, rfl⟩⟩
  · rw [predicate_t.write_src_eq]
    have h : deref "" = Char.ofNat 0 := by decide
    simp [predicate.true_t, predicate_t.get_name, predicate_t.operands, operand_t.base, h,
      String.intercalate, String.intercalate.go, String.append_assoc]
  · rw [predicate_t.write_src_eq]
    have h : deref "EQ" ≠ Char.ofNat 0 := by decide
    simp [predicate.eq_t, predicate_t.get_name, predicate_t.operands, operand_t.base, h,
      String.intercalate, String.intercalate.go, String.append_assoc]

/-- C16 as stated fails: the call form of `EXPECT_EQ(a, b)` is `EXPECT_EQ(a, b)` and not
`EQ(a, b)`. -/
theorem C16_call_form_is_not_bare :
    (predicate.eq_t (as_operand "a" (1 : Int)) (as_operand "b" (1 : Int))).write_src "" =
      "EXPECT_EQ(a, b)" ∧
    (predicate.eq_t (as_operand "a" (1 : Int)) (as_operand "b" (1 : Int))).write_src "" ≠
      "EQ(a, b)" := by
  constructor <;> decide

/-- C20, as the code has it: a fixture whose body has no expectation, never asks for the
stream through `lick::strm()` and returns is counted as passed; invoked at a verbosity
below 2 it writes nothing, and invoked at a verbosity of at least 2 it writes its begin
banner and then its end banner with the green lower-case status `pass`, and nothing else. -/
theorem C20_fixture_without_expectations (fixture : fixture_t) (cfg : cfg_t) (w : world_t)
    (hexp : fixture.fn.expectations = [])
    (hstrm : ∀ text : String, stmt_t.strm text ∉ fixture.fn.body)
    (hret : fixture.fn.thrown = none) :
    (fixture.call cfg w).1 = true ∧
    (cfg.verbosity < 2 → (fixture.call cfg w).2.strm = w.strm) ∧
    (cfg.verbosity ≥ 2 → (fixture.call cfg w).2.strm =
      w.strm ++
      (loc_t.write "" fixture.loc ++ "; begin " ++ bold ++ fixture.name ++ plain ++ "\n") ++
      ("end " ++ bold ++ fixture.name ++ plain ++ "; " ++ green ++ "pass" ++ plain ++ "\n")) := by
  have hbody : fixture.fn.body = [] := by
    cases hb : fixture.fn.body with
    | nil => rfl
    | cons stmt rest =>
      cases stmt with
      | expect loc predicate extra =>
        simp [fn_t.expectations, hb, stmt_t.expectation] at hexp
      | strm text =>
        exact absurd (by simp [hb]) (hstrm text)
  rw [fixture_t.call_eq]
  simp only [hbody, hret, fn_t.expectations]
  refine ⟨by simp, fun hv => ?_, fun hv => ?_⟩
  · have : ¬ cfg.verbosity ≥ 2 := by omega
    simp [this, String.join]
  · simp [hv, String.join, begin_banner, end_banner, pf_t.write, separator, endl, pass,
      String.append_assoc]

/-- C20 at the fixture `idle`, at verbosity 1 and at verbosity 2. -/
theorem C20_fixture_without_expectations_witness :
    idle.fn.expectations = [] ∧ (∀ text : String, stmt_t.strm text ∉ idle.fn.body) ∧
    idle.fn.thrown = none ∧
    (idle.call (match_all 1 false) blank).2.strm = "" ∧
    (idle.call (match_all 2 false) blank).2.strm =
      "idle.cc:1; begin \x1b[1midle\x1b[0m\nend \x1b[1midle\x1b[0m; \x1b[1;32mpass\x1b[0m\n" :=
  ⟨rfl, by simp [idle], rfl,
   (C20_fixture_without_expectations idle (match_all 1 false) blank rfl (by simp [idle])
      rfl).2.1 (by decide),
   ((C20_fixture_without_expectations idle (match_all 2 false) blank rfl (by simp [idle])
      rfl).2.2 (by decide)).trans (by decide)⟩

set_option maxRecDepth 100000 in
/-- C20 as stated fails: the fixture `peeking` has no expectation and returns, and invoked
at verbosity 1 it writes its begin banner and its end banner, because it calls
`lick::strm()`; so does `chatty`, with its note between them; and the end banner of `idle`
at verbosity 2 reports the green lower-case `pass`, the word `PASS` occurs nowhere. -/
theorem C20_banner_without_expectation :
    peeking.fn.expectations = [] ∧ peeking.fn.thrown = none ∧
    (peeking.call (match_all 1 false) blank).1 = true ∧
    (peeking.call (match_all 1 false) blank).2.strm =
      "peeking.cc:1; begin \x1b[1mpeeking\x1b[0m\n" ++
      "end \x1b[1mpeeking\x1b[0m; \x1b[1;32mpass\x1b[0m\n" ∧
    chatty.fn.expectations = [] ∧ chatty.fn.thrown = none ∧
    (chatty.call (match_all 1 false) blank).1 = true ∧
    (chatty.call (match_all 1 false) blank).2.strm =
      "chatty.cc:1; begin \x1b[1mchatty\x1b[0m\n" ++ "note\n" ++
      "end \x1b[1mchatty\x1b[0m; \x1b[1;32mpass\x1b[0m\n" ∧
    ¬ ("PASS".data <:+: (idle.call (match_all 2 false) blank).2.strm.data) := by
  refine ⟨rfl, rfl, ?_, ?_, rfl, rfl, ?_, ?_, ?_⟩ <;> decide

/-- C18: after fixtures have been constructed one after the other (whatever their names,
the same name twice included), `fixture_t::for_each` over the linked objects, given fuel
for as many rounds as there are fixtures, returns and does what the loop over the list of
those fixtures in the order of their construction does; with the callback that is always
true and collects what it is handed, it collects exactly that list; and constructing one
more fixture makes it collect the same list with the new fixture at the end. -/
theorem C18_registry_order (fixtures : List fixture_t) (loc_ : loc_t) (name_ : String)
    (fn_ : fn_t) :
    (∀ (σ : Type) (cb : σ → fixture_t → σ × Bool) (fuel : Nat) (s : σ),
      fixtures.length ≤ fuel →
      (registry_t.register fixtures).for_each cb fuel s =
        some (fixture_t.for_each fixtures cb s)) ∧
    (registry_t.register fixtures).for_each (fun visited fixture => (visited ++ [fixture], true))
      fixtures.length [] = some (fixtures, true) ∧
    ((registry_t.register fixtures).ctor loc_ name_ fn_).for_each
      (fun visited fixture => (visited ++ [fixture], true)) (fixtures.length + 1) [] =
        some (fixtures ++ [{ loc := loc_, name := name_, fn := fn_ }], true) ∧
    ((registry_t.register fixtures).ctor loc_ name_ fn_).objects.map node_t.fixture =
      (registry_t.register fixtures).objects.map node_t.fixture ++
        [{ loc := loc_, name := name_, fn := fn_ }] := by
  have h := registry_t.holds_register fixtures
  have h2 := registry_t.holds_ctor _ fixtures h loc_ name_ fn_
  refine ⟨fun σ cb fuel s hfuel => registry_t.linked_for_each_eq _ fixtures h cb fuel s hfuel, ?_, ?_,
    ?_⟩
  · rw [registry_t.linked_for_each_eq _ fixtures h _ _ _ (Nat.le_refl _), fixture_t.for_each_collect]
    simp
  · rw [registry_t.linked_for_each_eq _ _ h2 _ _ _ (by simp), fixture_t.for_each_collect]
    simp
  · rw [registry_t.holds_fixtures _ _ h2, registry_t.holds_fixtures _ _ h]

/-- C18 at the fixture `sound` registered twice and `arith` registered after. -/
theorem C18_registry_order_witness :
    [sound, sound].length ≤ 2 ∧
    ((registry_t.register [sound, sound]).ctor arith.loc arith.name arith.fn).for_each
      (fun visited fixture => (visited ++ [fixture], true)) 3 [] =
        some ([sound, sound, arith], true) :=
  ⟨by decide, (C18_registry_order [sound, sound] arith.loc arith.name arith.fn).2.2.1⟩

/-- C21: the fixture `thrower` throws at once; invoked at verbosity 1 it returns false and
all it writes is the indented `exception` line, with no begin banner before it and no end
banner after it, and at verbosity 0 likewise; only at verbosity 2 does the line stand
between the banners. -/
theorem C21_exception_line_without_banners :
    (thrower.call (match_all 1 false) blank).1 = false ∧
    (thrower.call (match_all 1 false) blank).2.strm = "  \x1b[1;31mexception\x1b[0m; boom\n" ∧
    (thrower.call (match_all 0 false) blank).2.strm = "  \x1b[1;31mexception\x1b[0m; boom\n" ∧
    (thrower.call (match_all 2 false) blank).2.strm =
      "thrower.cc:5; begin \x1b[1mthrower\x1b[0m\n" ++
      "  \x1b[1;31mexception\x1b[0m; boom\n" ++
      "end \x1b[1mthrower\x1b[0m; \x1b[1;32mpass\x1b[0m\n" := by
  refine ⟨?_, ?_, ?_, ?_⟩ <;> decide

/-- C22: the flag `ok` of a context is true after the constructor; the destructor of a
failing expectation leaves it false and that of a passing expectation leaves it as it was;
`fail` sets it to false and doing so twice is doing so once; and once it is false, neither
`fail`, `on_begin_show`, `get_strm`, the destructor of any expectation, any statement of a
fixture body nor any sequence of them makes it true again. -/
theorem C22_ok_flag_is_monotonic :
    (∀ (fixture : fixture_t) (cfg : cfg_t) (w : world_t),
      (ctxt_t.ctor fixture cfg w).1.ok = true ∧ (ctxt_t.ctor fixture cfg w).1.to_bool = true) ∧
    (∀ (e : expectation_t) (ctxt : ctxt_t) (w : world_t),
      (e.ok = false → (e.dtor ctxt w).1.ok = false) ∧
      (e.ok = true → (e.dtor ctxt w).1.ok = ctxt.ok)) ∧
    (∀ ctxt : ctxt_t, ctxt.fail.ok = false ∧ ctxt.fail.fail = ctxt.fail) ∧
    (∀ (ctxt : ctxt_t) (w : world_t), ctxt.ok = false →
      ctxt.fail.ok = false ∧
      (ctxt.on_begin_show w).1.ok = false ∧
      (ctxt.get_strm w).1.ok = false ∧
      (∀ e : expectation_t, (e.dtor ctxt w).1.ok = false) ∧
      (∀ stmt : stmt_t, (stmt_t.exec (ctxt, w) stmt).1.ok = false) ∧
      (∀ body : List stmt_t, (body.foldl stmt_t.exec (ctxt, w)).1.ok = false)) := by
  refine ⟨fun fixture cfg w => ?_, fun e ctxt w => ⟨fun h => ?_, fun h => ?_⟩,
    fun ctxt => ⟨rfl, rfl⟩, fun ctxt w h => ⟨rfl, ?_, ?_, fun e => ?_, fun stmt => ?_,
      fun body => ?_⟩⟩
  · simp only [ctxt_t.ctor, ctxt_t.on_begin_show_eq, ctxt_t.to_bool]
    split_ifs <;> exact ⟨rfl, rfl⟩
  · rw [expectation_t.dtor_eq]; simp [h]
  · rw [expectation_t.dtor_eq]; simp [h]
  · rw [ctxt_t.on_begin_show_eq]; exact h
  · rw [ctxt_t.get_strm, ctxt_t.on_begin_show_eq]; exact h
  · rw [expectation_t.dtor_eq]; simp [h]
  · rw [stmt_t.exec_eq]; simp [h]
  · rw [stmt_t.foldl_exec_eq]; simp [h]

set_option maxRecDepth 100000 in
/-- C23: the fixture `careless` passes its one expectation and then throws; invoked at
verbosity 2 it returns false, so the run driver counts it as failed, and its end banner
shows the status `pass`. -/
theorem C23_end_banner_passes_after_a_fault :
    (careless.call (match_all 2 false) blank).1 = false ∧
    (careless.call (match_all 2 false) blank).2.strm =
      "careless.cc:8; begin \x1b[1mcareless\x1b[0m\n" ++
      "  careless.cc:9; \x1b[1;32mpass\x1b[0m; EXPECT_EQ(2+2, 4)\n" ++
      "  \x1b[1;31mexception\x1b[0m; non-standard exception\n" ++
      "end \x1b[1mcareless\x1b[0m; \x1b[1;32mpass\x1b[0m\n" ∧
    (run_fixtures [careless] (match_all 2 false) blank).1 = false ∧
    (run_fixtures.loop [careless] (match_all 2 false) blank).1 =
      { pass_cnt := 0, fail_cnt := 1, skip_cnt := 0 } := by
  refine ⟨?_, ?_, ?_, ?_⟩ <;> decide

/-- C24, as the code has it: a fixture whose procedure returns, whose expectations all pass
and whose body never asks for the stream through `lick::strm()`, invoked at a verbosity
below 2, returns true and leaves the stream as it was, however many expectations it has and
whatever extra text they carry. -/
theorem C24_quiet_when_all_pass (fixture : fixture_t) (cfg : cfg_t) (w : world_t)
    (hret : fixture.fn.thrown = none)
    (hok : ∀ e ∈ fixture.fn.expectations, e.ok = true)
    (hstrm : ∀ text : String, stmt_t.strm text ∉ fixture.fn.body)
    (hv : cfg.verbosity < 2) :
    (fixture.call cfg w).1 = true ∧ (fixture.call cfg w).2.strm = w.strm := by
  have hnv : ¬ cfg.verbosity ≥ 2 := by omega
  have hprints : ∀ stmt ∈ fixture.fn.body, stmt.prints cfg = false := by
    intro stmt hmem
    cases hs : stmt.expectation with
    | none =>
      cases stmt with
      | expect loc predicate extra => simp [stmt_t.expectation] at hs
      | strm text => exact absurd hmem (hstrm text)
    | some e =>
      have he : e ∈ fixture.fn.expectations := by
        simp only [fn_t.expectations, List.mem_filterMap]
        exact ⟨stmt, hmem, hs⟩
      rw [(stmt_t.of_expectation cfg stmt e hs).2, hok e he]
      simp [hnv]
  have hany : fixture.fn.body.any (stmt_t.prints cfg) = false := by
    rw [List.any_eq_false]
    intro stmt hmem
    simp [hprints stmt hmem]
  have htext : String.join (fixture.fn.body.map (stmt_t.text cfg)) = "" := by
    have : ∀ body : List stmt_t, (∀ stmt ∈ body, stmt.prints cfg = false) →
        String.join (body.map (stmt_t.text cfg)) = "" := by
      intro body
      induction body with
      | nil => intro _; rfl
      | cons stmt rest ih =>
        intro h
        rw [List.map_cons, join_cons,
          stmt_t.text_of_not_prints cfg stmt (h stmt (List.mem_cons_self _ _)),
          ih (fun s hs => h s (List.mem_cons_of_mem _ hs))]
        rfl
    exact this _ hprints
  rw [fixture_t.call_eq]
  simp only [hret, hany, htext, hnv]
  constructor
  · simpa using hok
  · simp

/-- C24 at the fixture `steady`, at verbosity 1. -/
theorem C24_quiet_when_all_pass_witness :
    steady.fn.thrown = none ∧ (∀ e ∈ steady.fn.expectations, e.ok = true) ∧
    (∀ text : String, stmt_t.strm text ∉ steady.fn.body) ∧ (1 : Int) < 2 ∧
    (steady.call (match_all 1 false) blank).1 = true ∧
    (steady.call (match_all 1 false) blank).2.strm = "" :=
  ⟨rfl, by decide, by simp [steady], by decide,
   C24_quiet_when_all_pass steady (match_all 1 false) blank rfl (by decide)
     (by simp [steady]) (by decide)⟩

/-- C24 as stated fails: the procedure of `glancing` returns and its one expectation
passes, and invoked at verbosity 0 it returns true and writes its begin banner and its end
banner, because it calls `lick::strm()`; so does `noting`, with its note between them. -/
theorem C24_note_with_banners :
    glancing.fn.thrown = none ∧ (∀ e ∈ glancing.fn.expectations, e.ok = true) ∧
    (glancing.call (match_all 0 false) blank).1 = true ∧
    (glancing.call (match_all 0 false) blank).2.strm =
      "glancing.cc:2; begin \x1b[1mglancing\x1b[0m\n" ++
      "end \x1b[1mglancing\x1b[0m; \x1b[1;32mpass\x1b[0m\n" ∧
    noting.fn.thrown = none ∧ (∀ e ∈ noting.fn.expectations, e.ok = true) ∧
    (noting.call (match_all 0 false) blank).1 = true ∧
    (noting.call (match_all 0 false) blank).2.strm =
      "noting.cc:2; begin \x1b[1mnoting\x1b[0m\n" ++ "half way\n" ++
      "end \x1b[1mnoting\x1b[0m; \x1b[1;32mpass\x1b[0m\n" :=
  ⟨rfl, by decide, by decide, by decide, rfl, by decide, by decide, by decide⟩

end lick
